import Mathlib

/-!
# RLC C# binding generator (`RLCToCSharp.cpp`)

A shallow embedding of the C# back end of the RLC compiler: the two type
serializers, the helper predicates on IR types, and the emitters of wrapper
functions, wrapper classes and the dynamic-library bridge.

Text written through `StreamWriter` is modelled as a `String`: `write` appends
its arguments, `writenl` appends them followed by a newline and `endLine`
appends a newline.  The indentation bookkeeping of the writer (`indent`,
`indentOnce`) only produces leading white space and is left out.
-/

namespace RLC

/-! ## IR types -/

/-- The closed set of IR type variants the C# serializers are registered for. -/
inductive IRType where
  | Void
  | Bool
  | Integer (size : Nat)
  | Float
  | IntegerLiteral (value : Int)
  | StringLiteral
  | Alias (name : String) (underlying : IRType)
  | Frame (underlying : IRType)
  | Context (underlying : IRType)
  | Class (name : String) (mangledName : String) (members : List (String × IRType))
  | Alternative (mangledName : String) (underlying : List IRType)
  | Array (underlying : IRType) (arraySize : Int)
  | OwningPointer (underlying : IRType)
  | Reference (underlying : IRType)

/-- An `mlir::FunctionType`: the input types and the result types. -/
structure FunctionType where
  inputs : List IRType
  results : List IRType

/-- The name manglers `typeToMangled` and `mangledName`; both are defined
outside this translation unit and are taken as parameters. -/
structure Mangler where
  typeToMangled : IRType → String
  mangledName : String → Bool → FunctionType → String

/-- The facts of an `mlir::rlc::FunctionOp` the generator reads: the results of
its accessors (`getMangledName`, `getUnmangledName`, `getFunctionType`,
`getArgNames`, `getPrecondition().empty()`, `getCanFunctionMangledName`,
`isInternal`, `getIsMemberFunction`). -/
structure FunctionOp where
  mangledName : String
  unmangledName : String
  functionType : FunctionType
  argNames : List String
  hasPrecondition : Bool
  canFunctionMangledName : String
  isInternal : Bool
  isMemberFunction : Bool

/-- One entry of `op.getActions()`, resolved through
`builder.actionFunctionValueToActionStatement(value).front()`: the name of the
action statement, the names of its arguments and the function type of the
value. -/
structure ActionStatement where
  name : String
  argumentNames : List String
  type : FunctionType

/-- The facts of an `mlir::rlc::ActionFunction` the generator reads. -/
structure ActionFunction where
  mangledName : String
  unmangledName : String
  functionType : FunctionType
  mainActionType : FunctionType
  argNames : List String
  hasPrecondition : Bool
  canFunctionMangledName : String
  isInternal : Bool
  isMemberFunction : Bool
  actions : List ActionStatement
  classType : IRType

/-- Source: `isCSharpBuiltinType`. -/
def isCSharpBuiltinType : IRType → Bool
  | .Frame u => isCSharpBuiltinType u
  | .Context u => isCSharpBuiltinType u
  | .Integer _ => true
  | .Bool => true
  | .OwningPointer _ => true
  | .Reference _ => true
  | .Float => true
  | .StringLiteral => true
  | _ => false

/-- Source: `registerTypeConversionRaw`, the serializer with index 1. -/
def registerTypeConversionRaw (m : Mangler) : IRType → String
  | .IntegerLiteral v => toString v
  | .Void => "void"
  | .Alias name _ => name
  | .Frame u => registerTypeConversionRaw m u
  | .Context u => registerTypeConversionRaw m u
  | .Alternative mangled _ => mangled ++ ".Content"
  | .Integer size => if size = 64 then "long" else "sbyte"
  | .Float => "double"
  | .Bool => "bool"
  | .Class _ mangled _ => mangled ++ ".Content"
  | .StringLiteral => "char*"
  | .Array u n => m.typeToMangled (.Array u n) ++ ".Content"
  | .OwningPointer u => registerTypeConversionRaw m u ++ "*"
  | .Reference u => registerTypeConversionRaw m u ++ "*"

/-- Source: `registerTypeConversion`, the default serializer (index 0). -/
def registerTypeConversion (m : Mangler) : IRType → String
  | .IntegerLiteral v => toString v
  | .Void => "void"
  | .Alias name _ => name
  | .Frame u => registerTypeConversion m u
  | .Context u => registerTypeConversion m u
  | .Alternative mangled _ => mangled
  | .Integer size => if size = 64 then "long" else "sbyte"
  | .Float => "double"
  | .Bool => "bool"
  | .Class _ mangled _ => mangled
  | .StringLiteral => "char*"
  | .Array u n => m.typeToMangled (.Array u n)
  | .OwningPointer u => registerTypeConversion m u ++ "*"
  | .Reference u => registerTypeConversion m u

/-- The two rendering modes of `StreamWriter::writeType(type, index)`. -/
inductive Mode where
  | Wrapped
  | Raw
  deriving DecidableEq, Repr

/-- Source: `writer.writeType(type, index)`: index 0 is the serializer set up by
`registerTypeConversion`, index 1 the one set up by `registerTypeConversionRaw`. -/
def writeType (m : Mangler) (mode : Mode) (t : IRType) : String :=
  match mode with
  | .Wrapped => registerTypeConversion m t
  | .Raw => registerTypeConversionRaw m t

/-! ## Helpers on result types -/

/-- Source: `getResultType`: a function type without results has result `Void`. -/
def getResultType (t : FunctionType) : IRType :=
  match t.results with
  | [] => .Void
  | r :: _ => r

/-- Source: `depthOfReference`: the number of leading `Reference` layers. -/
def depthOfReference : IRType → Nat
  | .Reference u => depthOfReference u + 1
  | _ => 0

/-- Source: `dereferenceType`: the type under all leading `Reference` layers. -/
def dereferenceType : IRType → IRType
  | .Reference u => dereferenceType u
  | t => t

/-- Is the type `mlir::rlc::VoidType` (the test `mlir::isa<VoidType>`). -/
def isVoid : IRType → Bool
  | .Void => true
  | _ => false

/-! ## Function signatures -/

/-- Source: `writeName`. -/
def writeName (name : String) : String :=
  if name ≠ "out" then name else "_" ++ name

/-- The rendering mode selected by `writeType(type, isBuiltinDeclaration)`. -/
def modeOfFlag (isBuiltinDeclaration : Bool) : Mode :=
  if isBuiltinDeclaration then .Raw else .Wrapped

/-- The parameter loop of `writeFunctionArgs`; `index` is the loop counter and
`argsSize` is `args.size()`. -/
def writeFunctionArgsLoop (m : Mangler) (isBuiltinDeclaration : Bool) (argsSize : Nat) :
    Nat → List (IRType × String) → String
  | _, [] => ""
  | index, (type, name) :: rest =>
    (if isBuiltinDeclaration then "ref " else "")
      ++ writeType m (modeOfFlag isBuiltinDeclaration) type
      ++ " "
      ++ writeName name
      ++ (if index + 1 ≠ argsSize then ", " else "")
      ++ writeFunctionArgsLoop m isBuiltinDeclaration argsSize (index + 1) rest

/-- The result slot written by `writeFunctionArgs` for a non-void result. -/
def writeFunctionArgsResult (m : Mangler) (args : List String) (returnType : IRType)
    (isBuiltinDeclaration isMemberFunction : Bool) : String :=
  if isVoid returnType then ""
  else
    (if isCSharpBuiltinType returnType || isBuiltinDeclaration then "ref " else "")
      ++ (if isBuiltinDeclaration then writeType m .Raw returnType
          else writeType m .Wrapped (dereferenceType returnType))
      ++ " __result"
      ++ (if !args.isEmpty || (args.length == 1 && isMemberFunction) then ", " else "")

/-- Source: `writeFunctionArgs`. -/
def writeFunctionArgs (m : Mangler) (types : List IRType) (args : List String)
    (returnType : IRType) (isBuiltinDeclaration : Bool) (isMemberFunction : Bool := false) :
    String :=
  let toDrop : Nat := if isMemberFunction then 1 else 0
  "(" ++ writeFunctionArgsResult m args returnType isBuiltinDeclaration isMemberFunction
    ++ writeFunctionArgsLoop m isBuiltinDeclaration args.length toDrop
        ((types.zip args).drop toDrop)
    ++ ")"

/-- Source: `emitReturnVariable`. -/
def emitReturnVariable (m : Mangler) (returnType : IRType) : String :=
  if isVoid returnType then ""
  else if isCSharpBuiltinType returnType then
    writeType m .Raw returnType ++ " __result"
      ++ (match returnType with
          | .Reference _ => " = null;\n"
          | .OwningPointer _ => " = null;\n"
          | .StringLiteral => " = null;\n"
          | .Bool => " = false;\n"
          | _ => " = 0;\n")
  else
    writeType m .Wrapped returnType ++ " __result" ++ " = new "
      ++ writeType m .Wrapped returnType ++ "();"

/-! ## Wrapper functions -/

/-- Ways in which the generator stops without producing a wrapper: the call of
`abort()`, and an index outside a range (`types[i]`, `drop_begin`), which the
source leaves undefined. -/
inductive EmitError where
  | abort
  | outOfRange
  deriving DecidableEq, Repr

/-- One argument of the native call in a wrapper; `shown` is the spelling of
the argument name the loop writes. -/
def writeCallArg (types : List IRType) (argsSize : Nat) (index : Nat) (shown : String) :
    String :=
  "ref "
    ++ (if !isCSharpBuiltinType (types.getD index .Void) then "*" else "")
    ++ shown
    ++ (if !isCSharpBuiltinType (types.getD index .Void) then ".__content" else "")
    ++ (if index + 1 ≠ argsSize then ", " else "")

/-- The argument loop of `emitMemberFunctionsWrapper`, over
`drop_begin(enumerate(args), 1)`; it writes `arg.value()` as it is. -/
def memberCallArgs (types : List IRType) (argsSize : Nat) : Nat → List String → String
  | _, [] => ""
  | index, arg :: rest =>
    writeCallArg types argsSize index arg ++ memberCallArgs types argsSize (index + 1) rest

/-- The argument loop of `emitFreeFunctionsWrapper`, over `enumerate(args)`; it
writes the name through `writeName`. -/
def freeCallArgs (types : List IRType) (argsSize : Nat) : Nat → List String → String
  | _, [] => ""
  | index, arg :: rest =>
    writeCallArg types argsSize index (writeName arg)
      ++ freeCallArgs types argsSize (index + 1) rest

/-- The result slot of the native call in `emitMemberFunctionsWrapper`
(source lines 304-324). -/
def memberResultSlot (returnType : IRType) : Except EmitError String :=
  if isVoid returnType then .ok ""
  else if isCSharpBuiltinType returnType then .ok ("ref __result" ++ ", ")
  else if depthOfReference returnType ≠ 1 ∧ depthOfReference returnType ≠ 0 then
    .error .abort
  else
    .ok ("ref " ++ (if depthOfReference returnType = 0 then "*" else "")
      ++ "__result.__content" ++ ", ")

/-- The return statement of `emitMemberFunctionsWrapper` (source lines 342-362). -/
def memberReturn (m : Mangler) (returnType : IRType) : String :=
  if isVoid returnType then ""
  else
    "return "
      ++ (if depthOfReference returnType ≠ 0 then
            (if isCSharpBuiltinType (dereferenceType returnType) then "* __result;\n"
             else "new " ++ writeType m .Wrapped returnType ++ "(__result);\n")
          else "__result;\n")

/-- Source: `emitMemberFunctionsWrapper`. -/
def emitMemberFunctionsWrapper (m : Mangler) (mangledName name : String)
    (types : List IRType) (args : List String) (returnType : IRType) :
    Except EmitError String :=
  if args.isEmpty || types.length < args.length then .error .outOfRange
  else
    match memberResultSlot returnType with
    | .error e => .error e
    | .ok slot =>
      .ok ("public " ++ writeType m .Wrapped returnType ++ " " ++ name
        ++ writeFunctionArgs m types args .Void false true
        ++ "\x7b\n"
        ++ emitReturnVariable m returnType
        ++ "RLCNative." ++ mangledName ++ "("
        ++ slot
        ++ "ref *this.__content"
        ++ (if args.length ≠ 1 then ", " else "")
        ++ memberCallArgs types args.length 1 (args.drop 1)
        ++ ");\n"
        ++ memberReturn m returnType
        ++ "\x7d\n" ++ "\n")

/-- The result slot of the native call in `emitFreeFunctionsWrapper`
(source lines 392-403). -/
def freeResultSlot (args : List String) (returnType : IRType) : String :=
  if isVoid returnType then ""
  else
    "ref "
      ++ (if !isCSharpBuiltinType returnType then "*" else "")
      ++ "__result"
      ++ (if !isCSharpBuiltinType returnType then ".__content" else "")
      ++ (if !args.isEmpty then ", " else "")

/-- The return statement of `emitFreeFunctionsWrapper` (source lines 421-428):
`return`, one `*` per reference layer, then ` __result;`. -/
def freeReturn (returnType : IRType) : String :=
  if isVoid returnType then ""
  else
    "return" ++ String.join (List.replicate (depthOfReference returnType) "*")
      ++ " __result;\n"

/-- Source: `emitFreeFunctionsWrapper`. -/
def emitFreeFunctionsWrapper (m : Mangler) (mangledName name : String)
    (types : List IRType) (args : List String) (returnType : IRType) :
    Except EmitError String :=
  if types.length < args.length then .error .outOfRange
  else
    .ok ("public static " ++ writeType m .Wrapped returnType ++ " " ++ name
      ++ writeFunctionArgs m types args .Void false
      ++ "\x7b\n"
      ++ emitReturnVariable m returnType
      ++ "RLCNative." ++ mangledName ++ "("
      ++ freeResultSlot args returnType
      ++ freeCallArgs types args.length 0 args
      ++ ");\n"
      ++ freeReturn returnType
      ++ "\x7d\n" ++ "\n")

/-! ## Wrapper classes: the special functions

The members written by `emitSpecialFunctions` are kept as a list of `Member`
values; `Member.render` gives the text the source writes for each, and `runBody`
gives the meaning of a body in C#. -/

/-- The triviality side-table `MemberFunctionsTable`; it is built outside this
translation unit and its three queries are taken as parameters. -/
structure MemberFunctionsTable where
  isTriviallyInitializable : IRType → Bool
  isTriviallyDestructible : IRType → Bool
  isTriviallyCopiable : IRType → Bool
  getMemberFunctionsOf : IRType → List FunctionOp

/-- The statements written into the bodies of the special functions. -/
inductive Stmt where
  | setOwning (value : Bool)
  | storeReferred
  | allocContent (name : String)
  | nativeCall (symbol : String) (arguments : String)
  | returnUnlessOwning
  | freeContent
  deriving DecidableEq, Repr

/-- The text of a statement, as the source writes it. -/
def Stmt.render : Stmt → String
  | .setOwning value => "owning = " ++ (if value then "true" else "false") ++ ";\n"
  | .storeReferred => "__content = referred;\n"
  | .allocContent name =>
    "__content = (" ++ name ++ ".Content*) Marshal.AllocHGlobal(sizeof(" ++ name
      ++ ".Content));\n"
  | .nativeCall symbol arguments => "RLCNative." ++ symbol ++ arguments ++ "\n"
  | .returnUnlessOwning => "if (!owning)\n" ++ "return;\n"
  | .freeContent => "Marshal.FreeHGlobal((IntPtr)__content);\n"

/-- A member of a wrapper class written by `emitSpecialFunctions`: a constructor
of class `cls`, the destructor of class `cls`, or a `void` method. -/
inductive Member where
  | ctor (cls : String) (parameters : String) (body : List Stmt)
  | dtor (cls : String) (body : List Stmt)
  | method (name : String) (parameters : String) (body : List Stmt)
  deriving DecidableEq, Repr

/-- The body of a member. -/
def Member.body : Member → List Stmt
  | .ctor _ _ body => body
  | .dtor _ body => body
  | .method _ _ body => body

/-- The parameter list of a member; a destructor has none. -/
def Member.parameters : Member → String
  | .ctor _ parameters _ => parameters
  | .dtor _ _ => ""
  | .method _ parameters _ => parameters

/-- The text of a member, as the source writes it. -/
def Member.render : Member → String
  | .ctor cls parameters body =>
    "public " ++ cls ++ "(" ++ parameters ++ ") \x7b\n"
      ++ String.join (body.map Stmt.render) ++ "\x7d" ++ "\n"
  | .dtor cls body =>
    "~" ++ cls ++ "() \x7b\n" ++ String.join (body.map Stmt.render) ++ "\x7d" ++ "\n"
  | .method name parameters body =>
    "public void " ++ name ++ "(" ++ parameters ++ ") \x7b"
      ++ String.join (body.map Stmt.render) ++ "\x7d\n" ++ "\n"

/-- Source: `emitSpecialFunctions`: the borrowing constructor, the owning
constructor, the destructor and, unless the type is trivially copiable, the
method `assign`. -/
def emitSpecialFunctions (m : Mangler) (table : MemberFunctionsTable) (type : IRType) :
    List Member :=
  let name := m.typeToMangled type
  [ .ctor name (name ++ ".Content* referred") [.setOwning false, .storeReferred],
    .ctor name ""
      ([.allocContent name, .setOwning true]
        ++ (if !table.isTriviallyInitializable type then
              [.nativeCall (m.mangledName "init" true ⟨[type], []⟩) "(ref *this.__content);"]
            else [])),
    .dtor name
      ([.returnUnlessOwning]
        ++ (if !table.isTriviallyDestructible type then
              [.nativeCall (m.mangledName "drop" true ⟨[type], []⟩) "(ref *this.__content);"]
            else [])
        ++ [.freeContent]) ]
    ++ (if !table.isTriviallyCopiable type then
          [.method "assign" (name ++ " other")
            [.nativeCall (m.mangledName "assign" true ⟨[type, type], []⟩)
              "(ref *this.__content, ref *other.__content);"]]
        else [])

/-- The text `emitSpecialFunctions` writes. -/
def emitSpecialFunctionsText (m : Mangler) (table : MemberFunctionsTable) (type : IRType) :
    String :=
  String.join ((emitSpecialFunctions m table type).map Member.render)

/-- The constructors among the members. -/
def constructors (ms : List Member) : List Member :=
  ms.filter fun x => match x with
    | .ctor _ _ _ => true
    | _ => false

/-- The destructors among the members. -/
def destructors (ms : List Member) : List Member :=
  ms.filter fun x => match x with
    | .dtor _ _ => true
    | _ => false

/-- The ordinary methods among the members. -/
def methods (ms : List Member) : List Member :=
  ms.filter fun x => match x with
    | .method _ _ _ => true
    | _ => false

/-- The native symbols called in a body, in order. -/
def nativeCalls (body : List Stmt) : List String :=
  body.filterMap fun st => match st with
    | .nativeCall symbol _ => some symbol
    | _ => none

/-- The fields of a wrapper object: the ownership flag and the handle
`__content`. -/
structure WrapperState where
  owning : Bool
  content : Nat
  deriving DecidableEq, Repr

/-- What the body of a special function does to the outside world. -/
inductive Event where
  | alloc (bytes : Nat)
  | native (symbol : String)
  | free (handle : Nat)
  deriving DecidableEq, Repr

/-- The C# runtime a body runs in: the value of `sizeof` for a struct name and
the handle `Marshal.AllocHGlobal` returns. -/
structure Host where
  sizeofStruct : String → Nat
  allocResult : Nat

/-- One statement other than the early return: the new fields and the events. -/
def Stmt.step (host : Host) (referred : Nat) : Stmt → WrapperState → WrapperState × List Event
  | .setOwning value, s => ({ s with owning := value }, [])
  | .storeReferred, s => ({ s with content := referred }, [])
  | .allocContent name, s =>
    ({ s with content := host.allocResult }, [.alloc (host.sizeofStruct (name ++ ".Content"))])
  | .nativeCall symbol _, s => (s, [.native symbol])
  | .returnUnlessOwning, s => (s, [])
  | .freeContent, s => (s, [.free s.content])

/-- The run of a body: statements in order, `if (!owning) return;` ends the run
when the flag is false.  `referred` is the handle passed to a constructor. -/
def runBody (host : Host) (referred : Nat) : List Stmt → WrapperState → WrapperState × List Event
  | [], s => (s, [])
  | .returnUnlessOwning :: rest, s =>
    if s.owning then runBody host referred rest s else (s, [])
  | st :: rest, s =>
    let r := st.step host referred s
    let r2 := runBody host referred rest r.1
    (r2.1, r.2 ++ r2.2)

/-! ## Wrapper classes: getters of an Alternative type -/

/-- One getter written by `emitGetterSetters(AlternativeType)`: the Wrapped
rendering of the variant, whether the variant is a builtin type, the number
compared with `__active_index` and the number of the field `arg<n>` read. -/
structure AlternativeGetter where
  type : String
  builtin : Bool
  discriminant : Nat
  field : Nat
  deriving DecidableEq, Repr

/-- The text of a getter, as the source writes it. -/
def AlternativeGetter.render (g : AlternativeGetter) : String :=
  "public " ++ g.type ++ (if g.builtin then "?" else "")
    ++ " get_" ++ g.type
    ++ " \x7b get => __content->__active_index== " ++ toString g.discriminant ++ " ? "
    ++ (if !g.builtin then "new " ++ g.type ++ "(&(" else "(" ++ g.type ++ "?)")
    ++ "__content->__alternatives.arg" ++ toString g.field
    ++ (if !g.builtin then "))" else "")
    ++ " : null"
    ++ ";\x7d\n" ++ "\n"

/-- Source: `emitGetterSetters(AlternativeType)`, over
`llvm::enumerate(type.getUnderlying())`. -/
def emitGetterSettersAlternative (m : Mangler) (underlying : List IRType) :
    List AlternativeGetter :=
  underlying.enum.map fun alternative =>
    { type := writeType m .Wrapped alternative.2
      builtin := isCSharpBuiltinType alternative.2
      discriminant := alternative.1
      field := alternative.1 }

/-- A present value of a getter: the payload field `arg<field>`, read as a
nullable scalar, or wrapped in a new non-owning wrapper of class `wrapper`. -/
structure Payload where
  field : Nat
  wrapper : Option String
  deriving DecidableEq, Repr

/-- The value of the getter expression
`__content->__active_index== d ? <payload> : null`
for a given value of the discriminant field; `none` is `null`. -/
def AlternativeGetter.get (g : AlternativeGetter) (activeIndex : Int) : Option Payload :=
  if activeIndex = (g.discriminant : Int) then
    some { field := g.field, wrapper := if g.builtin then none else some g.type }
  else none

/-! ## Wrapper classes: arrays -/

/-- The indexer `this [int index]` written by `emitArrayDecl`: whether the
element type is builtin, its Wrapped and Raw renderings, and the number the
index is compared with. -/
structure Indexer where
  builtin : Bool
  elementType : String
  elementRaw : String
  bound : Int
  deriving DecidableEq, Repr

/-- The text of the indexer, as the source writes it. -/
def Indexer.render (ix : Indexer) : String :=
  "public " ++ (if ix.builtin then "ref " else "") ++ ix.elementType
    ++ " this [int index] \x7b\n"
    ++ "get \x7b\n"
    ++ "if ((((uint) index) >= " ++ toString ix.bound
    ++ ")) throw new ArgumentOutOfRangeException(nameof(index));\n"
    ++ "return \n"
    ++ (if ix.builtin then "ref (*(((" ++ ix.elementType ++ "*) __content) + index));"
        else "new " ++ ix.elementType ++ "((((" ++ ix.elementRaw ++ "*) __content) + index));")
    ++ "\x7d\n"
    ++ "\x7d\n"

/-- The wrapper class written by `emitArrayDecl`. -/
structure ArrayDecl where
  className : String
  contentBytes : Nat
  indexer : Indexer
  special : List Member
  deriving DecidableEq, Repr

/-- The text of the wrapper class of an array, as the source writes it. -/
def ArrayDecl.render (d : ArrayDecl) : String :=
  "public unsafe class " ++ d.className ++ "\x7b\n"
    ++ "public Content* __content;\n"
    ++ "private bool owning;\n"
    ++ "[StructLayout(LayoutKind.Sequential)]\n"
    ++ "public struct Content \x7b\n"
    ++ "public fixed byte" ++ " __content" ++ "[" ++ toString d.contentBytes ++ "];\n"
    ++ "\x7d\n" ++ "\n"
    ++ d.indexer.render
    ++ String.join (d.special.map Member.render)
    ++ "\x7d\n" ++ "\n"

/-- Source: `emitArrayDecl` for the array type `Array(underlying, arraySize)`. -/
def emitArrayDecl (m : Mangler) (table : MemberFunctionsTable) (underlying : IRType)
    (arraySize : Int) (typeSize : Nat) (_elementSize : Nat) : ArrayDecl :=
  { className := writeType m .Wrapped (.Array underlying arraySize)
    contentBytes := typeSize
    indexer :=
      { builtin := isCSharpBuiltinType underlying
        elementType := writeType m .Wrapped underlying
        elementRaw := writeType m .Raw underlying
        bound := arraySize }
    special := emitSpecialFunctions m table (.Array underlying arraySize) }

/-- The C# conversion `(uint) index` of a 32-bit signed `index`: the value
modulo 2^32. -/
def uintCast (index : Int) : Int :=
  index % 2 ^ 32

/-- The `get` accessor of the indexer at a 32-bit signed `index`: the guard
`((uint) index) >= bound` throws `ArgumentOutOfRangeException`, otherwise the
element at `index` is returned. -/
def Indexer.get (ix : Indexer) (index : Int) : Except String Int :=
  if uintCast index ≥ ix.bound then .error "ArgumentOutOfRangeException"
  else .ok index

/-- Does the `get` accessor raise the range error at `index`. -/
def Indexer.raises (ix : Indexer) (index : Int) : Bool :=
  match ix.get index with
  | .error _ => true
  | .ok _ => false

/-! ## The dynamic-library bridge

`emitSetTearDown` writes the bodies of `setup` and `teardown` from the recorded
symbol list.  The statements are kept as `BridgeStmt` values; `BridgeStmt.render`
gives the text the source writes and `runBridge` the meaning in C#. -/

/-- The statements of `setup` and `teardown`.  Every place where the source
writes a symbol name is a field of its own. -/
inductive BridgeStmt where
  | loadLibrary
  | requireLibrary
  | lookup (local_ : String) (symbol : String)
  | requireSymbol (local_ : String) (named : String)
  | bind (slot : String) (delegate : String) (local_ : String)
  | returnIfNoLibrary
  | clearSlot (slot : String)
  | freeLibrary
  | resetLibrary
  deriving DecidableEq, Repr

/-- The text of a bridge statement, as the source writes it. -/
def BridgeStmt.render : BridgeStmt → String
  | .loadLibrary => "_lib = RLCNative.LoadLibrary(libName);"
  | .requireLibrary =>
    "if (_lib == IntPtr.Zero) throw new Exception(\"Could not find library \" + libName );"
  | .lookup local_ symbol =>
    "IntPtr " ++ local_ ++ "_ptr = GetProcAddress(_lib, \"" ++ symbol ++ "\");" ++ "\n"
  | .requireSymbol local_ named =>
    "if (" ++ local_ ++ "_ptr == IntPtr.Zero) throw new Exception(\"Could not find symbol "
      ++ named ++ "\");" ++ "\n"
  | .bind slot delegate local_ =>
    slot ++ " = Marshal.GetDelegateForFunctionPointer<Delegate" ++ delegate ++ ">("
      ++ local_ ++ "_ptr);" ++ "\n"
  | .returnIfNoLibrary => "if (_lib == IntPtr.Zero) return;\n"
  | .clearSlot slot => slot ++ " = null;" ++ "\n"
  | .freeLibrary => "RLCNative.FreeLibrary(_lib);"
  | .resetLibrary => "_lib = IntPtr.Zero;\n"

/-- The loop of `setup` over `declaredFunNames`: lookup, check and binding of
each symbol in turn. -/
def setupLoop : List String → List BridgeStmt
  | [] => []
  | exposedSymbol :: rest =>
    .lookup exposedSymbol exposedSymbol
      :: .requireSymbol exposedSymbol exposedSymbol
      :: .bind exposedSymbol exposedSymbol exposedSymbol
      :: setupLoop rest

/-- The body of `setup` written by `emitSetTearDown`. -/
def setupBody (declaredFunNames : List String) : List BridgeStmt :=
  .loadLibrary :: .requireLibrary :: setupLoop declaredFunNames

/-- The body of `teardown` written by `emitSetTearDown`. -/
def teardownBody (declaredFunNames : List String) : List BridgeStmt :=
  .returnIfNoLibrary :: (declaredFunNames.map BridgeStmt.clearSlot
    ++ [.freeLibrary, .resetLibrary])

/-- Source: `emitSetTearDown`: the text written for the recorded symbols. -/
def emitSetTearDown (declaredFunNames : List String) : String :=
  "internal static string SharedLibExtension =>\n"
    ++ " RuntimeInformation.IsOSPlatform(OSPlatform.Windows) ? \".dll\" :\n"
    ++ "RuntimeInformation.IsOSPlatform(OSPlatform.OSX)     ? \".dylib\" :\n"
    ++ "/* default to Linux */ \".so\";\n"
    ++ "private static IntPtr _lib;\n"
    ++ "public static void setup(string libName) \x7b\n"
    ++ String.join ((setupBody declaredFunNames).map BridgeStmt.render)
    ++ "\x7d\n" ++ "\n"
    ++ "public static void teardown() \x7b\n"
    ++ String.join ((teardownBody declaredFunNames).map BridgeStmt.render)
    ++ "\x7d\n" ++ "\n"

/-- The native side of the bridge: the handle `LoadLibrary` returns for a path
(0 is `IntPtr.Zero`) and the address `GetProcAddress` returns for a handle and
a name (0 when the library does not export the name). -/
structure Loader where
  loadLibrary : String → Nat
  getProcAddress : Nat → String → Nat

/-- The state of the class `RLCNative` while `setup` or `teardown` runs: the
field `_lib`, the binding slots (`none` is `null`, `some p` the delegate for the
address `p`), the `IntPtr` locals of the running method and the handles passed
to `FreeLibrary` so far. -/
structure BridgeState where
  lib : Nat
  slots : String → Option Nat
  locals : String → Nat
  released : List Nat

/-- How the run of a body ends: it reaches the end, it returns early, or it
throws an exception with a message. -/
inductive Flow where
  | finished
  | returned
  | thrown (message : String)
  deriving DecidableEq, Repr

/-- One bridge statement: the new state, and `some` flow when the statement
leaves the method. -/
def BridgeStmt.exec (loader : Loader) (libName : String) :
    BridgeStmt → BridgeState → BridgeState × Option Flow
  | .loadLibrary, s => ({ s with lib := loader.loadLibrary libName }, none)
  | .requireLibrary, s =>
    if s.lib = 0 then (s, some (.thrown ("Could not find library " ++ libName)))
    else (s, none)
  | .lookup local_ symbol, s =>
    ({ s with locals := fun x =>
        if x = local_ then loader.getProcAddress s.lib symbol else s.locals x }, none)
  | .requireSymbol local_ named, s =>
    if s.locals local_ = 0 then (s, some (.thrown ("Could not find symbol " ++ named)))
    else (s, none)
  | .bind slot _ local_, s =>
    ({ s with slots := fun x =>
        if x = slot then some (s.locals local_) else s.slots x }, none)
  | .returnIfNoLibrary, s => if s.lib = 0 then (s, some .returned) else (s, none)
  | .clearSlot slot, s =>
    ({ s with slots := fun x => if x = slot then none else s.slots x }, none)
  | .freeLibrary, s => ({ s with released := s.released ++ [s.lib] }, none)
  | .resetLibrary, s => ({ s with lib := 0 }, none)

/-- The run of a body: statements in order until one leaves the method.  The
state at a throw is the state the static fields are left in. -/
def runBridge (loader : Loader) (libName : String) :
    List BridgeStmt → BridgeState → BridgeState × Flow
  | [], s => (s, .finished)
  | st :: rest, s =>
    match st.exec loader libName s with
    | (s1, some flow) => (s1, flow)
    | (s1, none) => runBridge loader libName rest s1

/-- The state of `RLCNative` before `setup` has run: no library, no slot bound. -/
def initialBridge : BridgeState where
  lib := 0
  slots := fun _ => none
  locals := fun _ => 0
  released := []

/-- A library used in the concrete examples: it loads with handle 1 and exports
`a` and `b` only. -/
def sampleLoader : Loader where
  loadLibrary := fun _ => 1
  getProcAddress := fun _ name =>
    if name = "a" then 10 else if name = "b" then 11 else 0

/-! ## The declaration pass -/

/-- What one call of `declareFunction` writes: the name after
`public delegate void Delegate`, the parameter list, and the type and the name
of the binding slot. -/
structure Delegate where
  delegate : String
  parameters : String
  slotType : String
  slot : String
  deriving DecidableEq, Repr

/-- The text of a declaration, as the source writes it. -/
def Delegate.render (d : Delegate) : String :=
  "public delegate void Delegate" ++ d.delegate ++ d.parameters ++ ";\n"
    ++ "public static Delegate" ++ d.slotType ++ " " ++ d.slot ++ ";\n"

/-- The state threaded through the declaration pass: the declarations written
so far and the recorded list `declaredFunNames`. -/
structure Declared where
  written : List Delegate
  declaredFunNames : List String
  deriving DecidableEq, Repr

/-- Source: `declareFunction`. -/
def declareFunction (m : Mangler) (mangledName : String) (types : List IRType)
    (args : List String) (returnType : IRType) (st : Declared) : Declared :=
  { written := st.written ++
      [{ delegate := mangledName
         parameters := writeFunctionArgs m types args returnType true
         slotType := mangledName
         slot := mangledName }]
    declaredFunNames := st.declaredFunNames ++ [mangledName] }

/-- Source: `CSharpFunctionDeclarationMatcher::apply`. -/
def CSharpFunctionDeclarationMatcher.apply (m : Mangler) (op : FunctionOp) (st : Declared) :
    Declared :=
  if op.isInternal then st
  else
    let st1 := declareFunction m op.mangledName op.functionType.inputs op.argNames
      (getResultType op.functionType) st
    if op.hasPrecondition then
      declareFunction m op.canFunctionMangledName op.functionType.inputs op.argNames .Bool st1
    else st1

/-- The loop of `CSharpActionDeclarationMatcher::apply` over `op.getActions()`:
each step is declared, then its `can_` predicate. -/
def declareActionStatements (m : Mangler) : List ActionStatement → Declared → Declared
  | [], st => st
  | actionStatement :: rest, st =>
    let argNames := "self" :: actionStatement.argumentNames
    let fType := actionStatement.type
    let mangled := m.mangledName actionStatement.name true fType
    let st1 := declareFunction m mangled fType.inputs argNames (getResultType fType) st
    let canDoType : FunctionType := ⟨fType.inputs, [.Bool]⟩
    let st2 := declareFunction m (m.mangledName ("can_" ++ actionStatement.name) true canDoType)
      canDoType.inputs argNames (getResultType canDoType) st1
    declareActionStatements m rest st2

/-- Source: `CSharpActionDeclarationMatcher::apply`. -/
def CSharpActionDeclarationMatcher.apply (m : Mangler) (op : ActionFunction) (st : Declared) :
    Declared :=
  if op.isInternal then st
  else
    let st1 := declareFunction m op.mangledName op.functionType.inputs op.argNames
      (getResultType op.functionType) st
    let st2 :=
      if op.hasPrecondition then
        declareFunction m op.canFunctionMangledName op.functionType.inputs op.argNames .Bool st1
      else st1
    let st3 := declareActionStatements m op.actions st2
    let canFType : FunctionType := ⟨[op.classType], [.Bool]⟩
    declareFunction m (m.mangledName "is_done" true canFType) canFType.inputs ["self"]
      (getResultType canFType) st3

/-! ## The wrapper pass for free functions -/

/-- Two pieces of generated text one after the other; the first error stops
the generation. -/
def andThen (a b : Except EmitError String) : Except EmitError String :=
  match a with
  | .error e => .error e
  | .ok x =>
    match b with
    | .error e => .error e
    | .ok y => .ok (x ++ y)

/-- Source: `CSharpFunctionWrappersMatcher::apply`. -/
def CSharpFunctionWrappersMatcher.apply (m : Mangler) (op : FunctionOp) :
    Except EmitError String :=
  if op.isInternal || op.isMemberFunction then .ok ""
  else
    andThen
      (emitFreeFunctionsWrapper m op.mangledName op.unmangledName op.functionType.inputs
        op.argNames (getResultType op.functionType))
      (if op.hasPrecondition then
        emitFreeFunctionsWrapper m op.canFunctionMangledName ("can_" ++ op.unmangledName)
          op.functionType.inputs op.argNames .Bool
       else .ok "")

/-- Source: `CSharpActionWrappersMatcher::apply`. -/
def CSharpActionWrappersMatcher.apply (m : Mangler) (op : ActionFunction) :
    Except EmitError String :=
  if op.isInternal || op.isMemberFunction then .ok ""
  else
    andThen
      (emitFreeFunctionsWrapper m op.mangledName op.unmangledName op.mainActionType.inputs
        op.argNames (getResultType op.functionType))
      (if op.hasPrecondition then
        emitFreeFunctionsWrapper m op.canFunctionMangledName ("can_" ++ op.unmangledName)
          op.functionType.inputs op.argNames .Bool
       else .ok "")

/-! ## Wrapper classes: classes and actions -/

/-- One field of the struct `Content` written by `emitClassMembers`: whether it
is written `private`, the Raw rendering of its type and its name. -/
structure ContentField where
  hidden : Bool
  type : String
  name : String
  deriving DecidableEq, Repr

/-- The text of a field, as the source writes it. -/
def ContentField.render (f : ContentField) : String :=
  (if f.hidden then "private " else "public ") ++ f.type ++ " " ++ f.name ++ ";" ++ "\n"

/-- Source: `emitClassMembers`, over the members (name and type) of the class. -/
def emitClassMembers (m : Mangler) (members : List (String × IRType)) : List ContentField :=
  members.map fun member =>
    { hidden := member.1.startsWith "_"
      type := writeType m .Raw member.2
      name := member.1 }

/-- One accessor written by `emitGetterSetters(ClassType)`: the Wrapped
rendering of the member type, the member name, and whether the type is
builtin. -/
structure Accessor where
  type : String
  name : String
  builtin : Bool
  deriving DecidableEq, Repr

/-- The text of an accessor, as the source writes it. -/
def Accessor.render (a : Accessor) : String :=
  "public " ++ a.type ++ " " ++ a.name ++ " \x7b get => "
    ++ (if !a.builtin then "new " ++ a.type ++ "(&" else "")
    ++ "__content->" ++ a.name
    ++ (if !a.builtin then ")" else "")
    ++ "; set => __content->" ++ a.name ++ " = "
    ++ (if !a.builtin then "*" else "")
    ++ "value"
    ++ (if !a.builtin then ".__content" else "")
    ++ ";\x7d\n" ++ "\n"

/-- Source: `emitGetterSetters(ClassType)`: members whose name starts with `_`
are skipped (`continue`). -/
def emitGetterSettersClass (m : Mangler) : List (String × IRType) → List Accessor
  | [] => []
  | (name, type) :: rest =>
    if name.startsWith "_" then emitGetterSettersClass m rest
    else
      { type := writeType m .Wrapped type
        name := name
        builtin := isCSharpBuiltinType type } :: emitGetterSettersClass m rest

/-- Source: `emitClassContent` for the class type
`Class(name, mangledName, members)`. -/
def emitClassContent (m : Mangler) (table : MemberFunctionsTable) (name mangledName : String)
    (members : List (String × IRType)) : String :=
  "unsafe public class " ++ mangledName ++ "\x7b\n"
    ++ "public Content* __content;\n"
    ++ "private bool owning;\n"
    ++ "[StructLayout(LayoutKind.Sequential)]\n"
    ++ "public struct Content \x7b\n"
    ++ String.join ((emitClassMembers m members).map ContentField.render)
    ++ "\x7d\n"
    ++ String.join ((emitGetterSettersClass m members).map Accessor.render)
    ++ emitSpecialFunctionsText m table (.Class name mangledName members)

/-- All pieces of generated text in order; the first error stops the
generation. -/
def emitAll : List (Except EmitError String) → Except EmitError String
  | [] => .ok ""
  | piece :: rest => andThen piece (emitAll rest)

/-- Source: `emitMemberFunction`. -/
def emitMemberFunction (m : Mangler) (memberFunction : FunctionOp) : Except EmitError String :=
  andThen
    (emitMemberFunctionsWrapper m memberFunction.mangledName memberFunction.unmangledName
      memberFunction.functionType.inputs memberFunction.argNames
      (getResultType memberFunction.functionType))
    (if memberFunction.hasPrecondition then
      emitMemberFunctionsWrapper m memberFunction.canFunctionMangledName
        ("can_" ++ memberFunction.unmangledName) memberFunction.functionType.inputs
        memberFunction.argNames .Bool
     else .ok "")

/-- The facts of an `EnumDeclarationOp` read by `emitClassDecl`: its name and
the names of its fields. -/
structure EnumDeclaration where
  name : String
  fields : List String

/-- The static method written by `emitClassDecl` for the enum field with the
given index. -/
def emitEnumField (enumName : String) (value : Nat × String) : String :=
  "public static " ++ enumName ++ " " ++ value.2 ++ "() \x7b"
    ++ enumName ++ " __result = new " ++ enumName ++ "();" ++ "\n"
    ++ "__result.value = " ++ toString value.1 ++ ";" ++ "\n"
    ++ "return __result;\n"
    ++ "\x7d\n" ++ "\n"

/-- Source: `emitClassDecl`. -/
def emitClassDecl (m : Mangler) (table : MemberFunctionsTable) (name mangledName : String)
    (members : List (String × IRType)) (enumDecl : Option EnumDeclaration) :
    Except EmitError String :=
  andThen (.ok (emitClassContent m table name mangledName members))
    (andThen
      (emitAll ((table.getMemberFunctionsOf (.Class name mangledName members)).map
        (emitMemberFunction m)))
      (.ok ((match enumDecl with
            | some decl => String.join (decl.fields.enum.map (emitEnumField decl.name))
            | none => "")
          ++ "\x7d\n" ++ "\n")))

/-- The two wrappers `emitActionDecl` writes for one action statement: the step
and its `can_` predicate. -/
def emitActionStatement (m : Mangler) (actionStatement : ActionStatement) :
    Except EmitError String :=
  let argNames := "self" :: actionStatement.argumentNames
  let fType := actionStatement.type
  let mangled := m.mangledName actionStatement.name true fType
  let canDoType : FunctionType := ⟨fType.inputs, [.Bool]⟩
  andThen
    (emitMemberFunctionsWrapper m mangled actionStatement.name fType.inputs argNames
      (getResultType fType))
    (emitMemberFunctionsWrapper m
      (m.mangledName ("can_" ++ actionStatement.name) true canDoType)
      ("can_" ++ actionStatement.name) canDoType.inputs argNames (getResultType canDoType))

/-- The methods `emitActionDecl` writes after the class content (source lines
993-1037): the wrappers of every action statement of `op`, then `is_done`. -/
def emitActionMethods (m : Mangler) (op : ActionFunction) : Except EmitError String :=
  let canFType : FunctionType := ⟨[op.classType], [.Bool]⟩
  andThen (emitAll (op.actions.map (emitActionStatement m)))
    (emitMemberFunctionsWrapper m (m.mangledName "is_done" true canFType) "is_done"
      [op.classType] ["self"] (getResultType canFType))

/-- Source: `emitActionDecl` for the class type `Class(name, mangledName, members)`;
`op` is the action function `builder.getActionOf(type)` returns. -/
def emitActionDecl (m : Mangler) (table : MemberFunctionsTable) (name mangledName : String)
    (members : List (String × IRType)) (op : ActionFunction) : Except EmitError String :=
  andThen (.ok (emitClassContent m table name mangledName members))
    (andThen (emitActionMethods m op) (.ok ("\x7d\n" ++ "\n")))

/-! ## The loader primitives -/

/-- Source: `emitDLLImporters`: the lines written, one `writenl` each. -/
def emitDLLImporters (isMac isWindows : Bool) : List String :=
  if isMac then
    [ "const string LIBDL = \"libSystem.B.dylib\";",
      "const int RTLD_NOW = 2;",
      "[DllImport(LIBDL)] static extern IntPtr dlopen (string path, int flags);",
      "[DllImport(LIBDL)] static extern int    dlclose(IntPtr handle);",
      "[DllImport(LIBDL)] static extern IntPtr dlsym  (IntPtr handle, string name);",
      "static IntPtr LoadLibrary (string p) => dlopen (p, RTLD_NOW);",
      "static bool   FreeLibrary (IntPtr h)  \x7b dlclose(h); return true; \x7d",
      "static IntPtr GetProcAddress(IntPtr h,string n)=>dlsym(h,n);" ]
  else if isWindows then
    [ "const string KERNEL = \"kernel32\"\n",
      "[DllImport(KERNEL, SetLastError = true)] static extern IntPtr LoadLibrary(string path) ",
      "[DllImport(KERNEL, SetLastError = true)] static extern bool FreeLibrary(IntPtr hModule);",
      "[DllImport(KERNEL)]                      static extern "
        ++ "IntPtr GetProcAddress(IntPtr h, string name);" ]
  else
    [ "const string LIBDL = \"libdl.so.2\";",
      "const int RTLD_NOW = 2;",
      "[DllImport(LIBDL)] static extern IntPtr dlopen (string path, int flags);",
      "[DllImport(LIBDL)] static extern int    dlclose(IntPtr handle);",
      "[DllImport(LIBDL)] static extern IntPtr dlsym  (IntPtr handle, string name);",
      "[DllImport(LIBDL, CharSet = CharSet.Ansi, ExactSpelling = true)]",
      "static extern IntPtr dlerror();",
      "static IntPtr LoadLibrary (string p) => dlopen (p, RTLD_NOW);",
      "static string DlLastError()",
      "\x7b",
      "    IntPtr p = dlerror();",
      "    return p != IntPtr.Zero ? Marshal.PtrToStringAnsi(p) : null;",
      "\t\t\x7d",
      "static bool   FreeLibrary (IntPtr h)  \x7b dlclose(h); return true; \x7d",
      "static IntPtr GetProcAddress(IntPtr h,string n)=>dlsym(h,n);" ]

/-- The text `emitDLLImporters` writes: every line followed by a newline. -/
def emitDLLImportersText (isMac isWindows : Bool) : String :=
  String.join ((emitDLLImporters isMac isWindows).map fun line => line ++ "\n")

/-! ## Observations on bridge statements -/

/-- The name a `lookup` statement passes to `GetProcAddress`. -/
def BridgeStmt.lookedUp : BridgeStmt → Option String
  | .lookup _ symbol => some symbol
  | _ => none

/-- The name in the error message of a missing-symbol check. -/
def BridgeStmt.checked : BridgeStmt → Option String
  | .requireSymbol _ named => some named
  | _ => none

/-- The slot a `bind` statement assigns. -/
def BridgeStmt.bound : BridgeStmt → Option String
  | .bind slot _ _ => some slot
  | _ => none

/-- The slot a `clearSlot` statement sets to `null`. -/
def BridgeStmt.cleared : BridgeStmt → Option String
  | .clearSlot slot => some slot
  | _ => none

/-- Every symbol name a bridge statement mentions. -/
def BridgeStmt.names : BridgeStmt → List String
  | .lookup local_ symbol => [local_, symbol]
  | .requireSymbol local_ named => [local_, named]
  | .bind slot delegate local_ => [slot, delegate, local_]
  | .clearSlot slot => [slot]
  | _ => []

/-! ## The driver: array types -/

/-- Source: the `ArrayType` branch of `PrintCSharpPass::runOnOperation` (lines
1271-1279).  `getSizeTypeInBytes` asks the data layout for the byte size of a
type; the data layout is outside this translation unit and is the parameter
`sizeOf`. -/
def runOnOperationArray (m : Mangler) (table : MemberFunctionsTable) (sizeOf : IRType → Nat)
    (underlying : IRType) (arraySize : Int) : ArrayDecl :=
  emitArrayDecl m table underlying arraySize (sizeOf (.Array underlying arraySize))
    (sizeOf underlying)

/-! ## Names of the getters of an Alternative type -/

/-- The name of a getter: the source writes ` get_` and then the Wrapped
rendering of the variant. -/
def AlternativeGetter.name (g : AlternativeGetter) : String :=
  "get_" ++ g.type

/-! ## Observations on the lines of the loader primitives -/

/-- Does `line` start with the characters of `start`. -/
def startsWithChars (start : List Char) (line : List Char) : Bool :=
  start.isPrefixOf line

/-- Does `line` contain the characters of `part` in a row. -/
def containsChars (part : List Char) : List Char → Bool
  | [] => part.isEmpty
  | c :: rest => part.isPrefixOf (c :: rest) || containsChars part rest

/-- Is the line a constant declaration (`const ...`). -/
def isConstantDeclaration (line : String) : Bool :=
  startsWithChars "const ".data line.data

/-- Is the line a `static extern` import. -/
def isExternImport (line : String) : Bool :=
  containsChars "static extern".data line.data

/-- Is the last character of the line that is not white space a `;`. -/
def isTerminated (line : String) : Bool :=
  (line.data.reverse.dropWhile Char.isWhitespace).head? == some ';'

/-! ## AddOutOfBoundsCheckPass -/

/-- The index operand of an `ArrayAccess`: the result of a `Constant` whose
value is an `IntegerAttr` of `bits` bits with the bit pattern `pattern`, or any
other value. -/
inductive IndexOperand where
  | constant (bits : Nat) (pattern : Nat)
  | other (value : Nat)
  deriving DecidableEq, Repr

/-- The facts of an `ArrayAccess` the pass reads: the array size of the type of
the accessed value (`none` when that type is not an `ArrayType`) and the index
operand. -/
structure ArrayAccess where
  arraySize : Option Int
  memberIndex : IndexOperand
  deriving DecidableEq, Repr

/-- The result of `APInt::getZExtValue()`: the bits as an unsigned number. -/
def getZExtValue (bits pattern : Nat) : Nat :=
  pattern % 2 ^ bits

/-- The conversion of a `uint64_t` to `int64_t`. -/
def toInt64 (value : Nat) : Int :=
  if value % 2 ^ 64 < 2 ^ 63 then (value % 2 ^ 64 : Nat) else ((value % 2 ^ 64 : Nat) : Int) - 2 ^ 64

/-- The signed value of an integer constant of `bits` bits (two's complement). -/
def signedValue (bits pattern : Nat) : Int :=
  if pattern % 2 ^ bits < 2 ^ (bits - 1) then (pattern % 2 ^ bits : Nat)
  else ((pattern % 2 ^ bits : Nat) : Int) - 2 ^ bits

/-- An integer operand of the inserted comparison: the index of the access or
a new `Constant`. -/
inductive CheckOperand where
  | memberIndex
  | constant (value : Int)
  deriving DecidableEq, Repr

/-- The condition built by the pass from `GreaterEqualOp`, `LessOp`, `OrOp`
and `NotOp`. -/
inductive CheckCondition where
  | greaterEqual (lhs rhs : CheckOperand)
  | less (lhs rhs : CheckOperand)
  | or (lhs rhs : CheckCondition)
  | not (operand : CheckCondition)
  deriving DecidableEq, Repr

/-- Source: `AddOutOfBoundsCheckPass::addOutOfBoundsCheck`: the conditions of
the `AssertOp`s created immediately before the access (the builder is
positioned at the access). -/
def addOutOfBoundsCheck (op : ArrayAccess) : List CheckCondition :=
  match op.arraySize with
  | none => []
  | some arraySize =>
    let check : List CheckCondition :=
      [.not (.or (.greaterEqual .memberIndex (.constant arraySize))
                 (.less .memberIndex (.constant 0)))]
    match op.memberIndex with
    | .constant bits pattern =>
      let index : Int := toInt64 (getZExtValue bits pattern)
      if index ≥ 0 ∧ index < arraySize then [] else check
    | .other _ => check

/-- The value of an operand when the index of the access is `index`. -/
def CheckOperand.eval (index : Int) : CheckOperand → Int
  | .memberIndex => index
  | .constant value => value

/-- The value of a condition when the index of the access is `index`. -/
def CheckCondition.eval (index : Int) : CheckCondition → Bool
  | .greaterEqual lhs rhs => decide (lhs.eval index ≥ rhs.eval index)
  | .less lhs rhs => decide (lhs.eval index < rhs.eval index)
  | .or lhs rhs => lhs.eval index || rhs.eval index
  | .not operand => !operand.eval index

/-! ## The two loops over `Reference` layers, iteration by iteration -/

/-- Is the type an `mlir::rlc::ReferenceType` (the test
`mlir::dyn_cast<mlir::rlc::ReferenceType>` of both loops). -/
def isReference : IRType → Bool
  | .Reference _ => true
  | _ => false

/-- Source: the `while` loop of `depthOfReference`, run for at most `fuel` tests
of its condition from the state `(dereferencedReturnType, derefToEmit)`; `none`
when the loop has not left after `fuel` tests. -/
def depthOfReferenceWhile : Nat → IRType → Nat → Option Nat
  | 0, _, _ => none
  | fuel + 1, .Reference u, derefToEmit => depthOfReferenceWhile fuel u (derefToEmit + 1)
  | _ + 1, _, derefToEmit => some derefToEmit

/-- Source: the `while` loop of `dereferenceType`, run for at most `fuel` tests
of its condition from the state `dereferencedReturnType`; `none` when the loop
has not left after `fuel` tests. -/
def dereferenceTypeWhile : Nat → IRType → Option IRType
  | 0, _ => none
  | fuel + 1, .Reference u => dereferenceTypeWhile fuel u
  | _ + 1, t => some t

/-! ## Sizes in the concrete examples: the C# host and the data layout -/

/-- The bytes C# gives to a field of the struct `Content` whose type is a
scalar, by the Raw spelling of the type: `sbyte` and `bool` take one byte;
`long`, `double` and a pointer take eight. -/
def fieldBytes (f : ContentField) : Nat :=
  if f.type = "sbyte" ∨ f.type = "bool" then 1 else 8

/-- The data layout of the concrete examples, the answer of
`getSizeTypeInBytes`: an integer of `size` bits takes `size / 8` bytes, and so
does a class whose one member is such an integer. -/
def sampleSizeOf : IRType → Nat
  | .Integer size => size / 8
  | .Class _ _ [(_, .Integer size)] => size / 8
  | _ => 8

/-! ## More observations on the lines of the loader primitives -/

/-- Does `line` contain `name`. -/
def mentions (name line : String) : Bool :=
  containsChars name.data line.data

/-- Does the line end a declaration: its last character that is not white
space is `;` or the closing brace of a body. -/
def isCompleteDeclaration (line : String) : Bool :=
  (line.data.reverse.dropWhile Char.isWhitespace).head? == some ';'
    || (line.data.reverse.dropWhile Char.isWhitespace).head? == some (Char.ofNat 125)

/-- A side-table used in the concrete examples: nothing is trivial. -/
def sampleTable : MemberFunctionsTable where
  isTriviallyInitializable := fun _ => false
  isTriviallyDestructible := fun _ => false
  isTriviallyCopiable := fun _ => false
  getMemberFunctionsOf := fun _ => []

/-- A mangler used in the concrete examples. -/
def sampleMangler : Mangler where
  typeToMangled := fun t =>
    match t with
    | .Class _ mangled _ => mangled
    | .Alternative mangled _ => mangled
    | _ => "arr"
  mangledName := fun name _ _ => "rl_" ++ name

/-- An internal action used in the concrete examples: `_play`, with the class
`P` as its state and the one step `pick(x)`. -/
def sampleInternalAction : ActionFunction where
  mangledName := "rl__play"
  unmangledName := "_play"
  functionType := ⟨[], [.Class "P" "P" []]⟩
  mainActionType := ⟨[], [.Class "P" "P" []]⟩
  argNames := []
  hasPrecondition := false
  canFunctionMangledName := "rl_can__play"
  isInternal := true
  isMemberFunction := false
  actions := [⟨"pick", ["x"], ⟨[.Class "P" "P" [], .Integer 64], []⟩⟩]
  classType := .Class "P" "P" []

/-- An action used in the concrete examples: `play`, not internal, with the
class `P` as its state and the one step `pick(x)`. -/
def sampleAction : ActionFunction where
  mangledName := "rl_play"
  unmangledName := "play"
  functionType := ⟨[], [.Class "P" "P" []]⟩
  mainActionType := ⟨[], [.Class "P" "P" []]⟩
  argNames := []
  hasPrecondition := false
  canFunctionMangledName := "rl_can_play"
  isInternal := false
  isMemberFunction := false
  actions := [⟨"pick", ["x"], ⟨[.Class "P" "P" [], .Integer 64], []⟩⟩]
  classType := .Class "P" "P" []

/-- An internal member function used in the concrete examples: `_reset` on the
class `P`. -/
def sampleInternalMember : FunctionOp where
  mangledName := "rl__reset"
  unmangledName := "_reset"
  functionType := ⟨[.Class "P" "P" []], []⟩
  argNames := ["self"]
  hasPrecondition := false
  canFunctionMangledName := "rl_can__reset"
  isInternal := true
  isMemberFunction := true

/-- The C# host of the concrete examples: `sizeof(A.Content)` is the size of
the fields `emitClassMembers` writes for the class `A` with the one member `x`
of 32 bits, no other struct is known, and `Marshal.AllocHGlobal` returns the
handle 1. -/
def sampleHost : Host where
  sizeofStruct := fun name =>
    if name = "A.Content" then
      ((emitClassMembers sampleMangler [("x", .Integer 32)]).map fieldBytes).sum
    else 0
  allocResult := 1

end RLC

/-! # Theorems -/

namespace RLC

open IRType

/-! ## Helpers on joined text -/

/-- Helper: `String.join` of a list with a first entry. -/
theorem join_cons (a : String) (l : List String) : String.join (a :: l) = a ++ String.join l := by
  have h : ∀ (l : List String) (acc : String),
      List.foldl (fun r s => r ++ s) acc l = acc ++ List.foldl (fun r s => r ++ s) "" l := by
    intro l
    induction l with
    | nil => intro acc; simp
    | cons b l ih =>
      intro acc
      simp only [List.foldl_cons, String.empty_append]
      rw [ih (acc ++ b), ih b, String.append_assoc]
  simp only [String.join, List.foldl_cons, String.empty_append]
  exact h l a

/-- Helper: `String.join` of two lists one after the other. -/
theorem join_append (l₁ l₂ : List String) :
    String.join (l₁ ++ l₂) = String.join l₁ ++ String.join l₂ := by
  induction l₁ with
  | nil => simp [String.join]
  | cons a l ih => simp only [List.cons_append, join_cons, ih, String.append_assoc]

/-! ## The emitted text at sample inputs -/

set_option maxRecDepth 8000 in
/-- The text of the special functions of a class `A` for which nothing is trivial. -/
theorem emitSpecialFunctionsText_sample :
    emitSpecialFunctionsText sampleMangler sampleTable (Class "A" "A" [])
      = "public A(A.Content* referred) \x7b\nowning = false;\n__content = referred;\n\x7d\n"
        ++ "public A() \x7b\n"
        ++ "__content = (A.Content*) Marshal.AllocHGlobal(sizeof(A.Content));\n"
        ++ "owning = true;\nRLCNative.rl_init(ref *this.__content);\n\x7d\n"
        ++ "~A() \x7b\nif (!owning)\nreturn;\nRLCNative.rl_drop(ref *this.__content);\n"
        ++ "Marshal.FreeHGlobal((IntPtr)__content);\n\x7d\n"
        ++ "public void assign(A other) \x7bRLCNative.rl_assign(ref *this.__content, "
        ++ "ref *other.__content);\n\x7d\n\n" := by
  rfl

/-- The text of the getters of the alternative over `Integer` and a class `A`. -/
theorem emitGetterSettersAlternative_sample :
    (emitGetterSettersAlternative sampleMangler [Integer 64, Class "A" "A" []]).map
        AlternativeGetter.render
      = [ "public long? get_long \x7b get => __content->__active_index== 0 ? "
            ++ "(long?)__content->__alternatives.arg0 : null;\x7d\n\n",
          "public A get_A \x7b get => __content->__active_index== 1 ? "
            ++ "new A(&(__content->__alternatives.arg1)) : null;\x7d\n\n" ] := by
  rfl

/-- The text of the bodies of `setup` and `teardown` for the one symbol `a`. -/
theorem setup_teardown_text_sample :
    String.join ((setupBody ["a"]).map BridgeStmt.render)
      = "_lib = RLCNative.LoadLibrary(libName);"
        ++ "if (_lib == IntPtr.Zero) throw new Exception(\"Could not find library \" "
        ++ "+ libName );"
        ++ "IntPtr a_ptr = GetProcAddress(_lib, \"a\");\n"
        ++ "if (a_ptr == IntPtr.Zero) throw new Exception(\"Could not find symbol a\");\n"
        ++ "a = Marshal.GetDelegateForFunctionPointer<Delegatea>(a_ptr);\n" ∧
    String.join ((teardownBody ["a"]).map BridgeStmt.render)
      = "if (_lib == IntPtr.Zero) return;\na = null;\n"
        ++ "RLCNative.FreeLibrary(_lib);_lib = IntPtr.Zero;\n" := by
  constructor <;> rfl

/-- The text of the indexer of an array of four integers. -/
theorem indexer_text_sample :
    (emitArrayDecl sampleMangler sampleTable (Integer 64) 4 32 8).indexer.render
      = "public ref long this [int index] \x7b\nget \x7b\n"
        ++ "if ((((uint) index) >= 4)) throw new ArgumentOutOfRangeException(nameof(index));\n"
        ++ "return \nref (*(((long*) __content) + index));\x7d\n\x7d\n" := by
  rfl

/-! ## C1: reference depth of a result type -/

/-- C1 (the code at the failing input): a free function and a member function
whose result type `Reference(Reference(Integer 64))` has reference depth 2 both
get a wrapper; neither generator aborts.  The free wrapper is declared to return
`long` and returns `** __result`; the member wrapper is declared to return
`long` and returns `* __result`, a `long*`; the part of the member wrapper that
holds the call of `abort()` writes the result slot and does not abort. -/
theorem C1_depth_two_result_is_emitted :
    depthOfReference (Reference (Reference (Integer 64))) = 2 ∧
    emitFreeFunctionsWrapper sampleMangler "rl_f" "f" [Integer 64] ["x"]
        (Reference (Reference (Integer 64)))
      = .ok ("public static long f(long x)\x7b\nlong** __result = null;\n"
          ++ "RLCNative.rl_f(ref __result, ref x);\nreturn** __result;\n\x7d\n\n") ∧
    emitMemberFunctionsWrapper sampleMangler "rl_g" "g" [Class "A" "A" []] ["self"]
        (Reference (Reference (Integer 64)))
      = .ok ("public long g()\x7b\nlong** __result = null;\n"
          ++ "RLCNative.rl_g(ref __result, ref *this.__content);\nreturn * __result;\n\x7d\n\n") ∧
    memberResultSlot (Reference (Reference (Integer 64))) = .ok "ref __result, " :=
  ⟨rfl, rfl, rfl, rfl⟩

/-! ## C2: a failed `setup` -/

/-- Helper: the symbol loop of `setup`, started with `_lib = handle`, binds the
symbols before the first one that does not resolve and throws at that one. -/
theorem setupLoop_stops_at_missing (loader : Loader) (libName : String) (s : String)
    (post : List String) (handle : Nat) (hs : loader.getProcAddress handle s = 0) :
    ∀ (pre : List String) (st : BridgeState), st.lib = handle →
      (∀ x ∈ pre, loader.getProcAddress handle x ≠ 0) →
      (runBridge loader libName (setupLoop (pre ++ s :: post)) st).2
          = .thrown ("Could not find symbol " ++ s) ∧
      (runBridge loader libName (setupLoop (pre ++ s :: post)) st).1.lib = handle ∧
      ∀ x, (runBridge loader libName (setupLoop (pre ++ s :: post)) st).1.slots x
          = if x ∈ pre then some (loader.getProcAddress handle x) else st.slots x := by
  intro pre
  induction pre with
  | nil =>
    intro st hlib _
    simp [setupLoop, runBridge, BridgeStmt.exec, hlib, hs]
  | cons a pre ih =>
    intro st hlib hpre
    have ha : loader.getProcAddress handle a ≠ 0 := hpre a (List.mem_cons_self _ _)
    have hrest : ∀ x ∈ pre, loader.getProcAddress handle x ≠ 0 :=
      fun x hx => hpre x (List.mem_cons_of_mem _ hx)
    simp only [List.cons_append, setupLoop, runBridge, BridgeStmt.exec, hlib, if_true, if_neg ha]
    obtain ⟨h1, h2, h3⟩ := ih
      { lib := handle
        slots := fun x => if x = a then some (loader.getProcAddress handle a) else st.slots x
        locals := fun x => if x = a then loader.getProcAddress handle a else st.locals x
        released := st.released } rfl hrest
    refine ⟨h1, h2, ?_⟩
    intro x
    refine (h3 x).trans ?_
    by_cases hx : x ∈ pre
    · simp [hx]
    · by_cases hxa : x = a
      · simp [hxa]
      · simp [hx, hxa]

/-- C2 (as stated, refuted): for the declared symbols `a`, `b`, `c` and a
library that loads and exports only `a` and `b`, `setup` throws the error that
names `c`, and afterwards the slots `a` and `b` are bound; only `c` is unbound. -/
theorem C2_failed_setup_leaves_two_slots_bound :
    (runBridge sampleLoader "lib.so" (setupBody ["a", "b", "c"]) initialBridge).2
      = .thrown "Could not find symbol c" ∧
    ["a", "b", "c"].map
        (runBridge sampleLoader "lib.so" (setupBody ["a", "b", "c"]) initialBridge).1.slots
      = [some 10, some 11, none] ∧
    ["a", "b", "c"].map
        (runBridge sampleLoader "lib.so" (setupBody ["a", "b", "c"]) initialBridge).1.slots
      ≠ [none, none, none] := by
  decide

/-- C2 (amended): when the library loads, every symbol declared before `s`
resolves and `s` does not, `setup` throws the error that names `s`; the slots of
the symbols declared before `s` are then bound to their addresses, and every
other slot, the one of `s` and the later ones included, is as it was before. -/
theorem C2_failed_setup_binds_the_earlier_slots (loader : Loader) (libName : String)
    (pre post : List String) (s : String) (st : BridgeState)
    (hlib : loader.loadLibrary libName ≠ 0)
    (hpre : ∀ x ∈ pre, loader.getProcAddress (loader.loadLibrary libName) x ≠ 0)
    (hs : loader.getProcAddress (loader.loadLibrary libName) s = 0) :
    (runBridge loader libName (setupBody (pre ++ s :: post)) st).2
        = .thrown ("Could not find symbol " ++ s) ∧
    ∀ x, (runBridge loader libName (setupBody (pre ++ s :: post)) st).1.slots x
        = if x ∈ pre then some (loader.getProcAddress (loader.loadLibrary libName) x)
          else st.slots x := by
  have h := setupLoop_stops_at_missing loader libName s post _ hs pre
    { st with lib := loader.loadLibrary libName } rfl hpre
  simp only [setupBody, runBridge, BridgeStmt.exec, if_neg hlib]
  exact ⟨h.1, h.2.2⟩

/-- Witness of C2 (amended): the symbols `a`, `b`, `c` and the library that
exports `a` and `b` only. -/
theorem C2_failed_setup_binds_the_earlier_slots_witness :
    (runBridge sampleLoader "lib.so" (setupBody (["a", "b"] ++ "c" :: [])) initialBridge).2
        = .thrown ("Could not find symbol " ++ "c") ∧
    ∀ x, (runBridge sampleLoader "lib.so" (setupBody (["a", "b"] ++ "c" :: []))
            initialBridge).1.slots x
        = if x ∈ ["a", "b"] then
            some (sampleLoader.getProcAddress (sampleLoader.loadLibrary "lib.so") x)
          else initialBridge.slots x :=
  C2_failed_setup_binds_the_earlier_slots sampleLoader "lib.so" ["a", "b"] [] "c"
    initialBridge (by decide) (by decide) (by decide)

/-! ## C3: getters of an Alternative type -/

/-- Helper: the getter at position `j` compares with `j` and reads `arg<j>`. -/
theorem getter_at (m : Mangler) (underlying : List IRType) (j : Nat) (g : AlternativeGetter)
    (h : (emitGetterSettersAlternative m underlying)[j]? = some g) :
    g.discriminant = j ∧ g.field = j := by
  simp only [emitGetterSettersAlternative, List.getElem?_map, List.getElem?_enum,
    Option.map_map, Option.map_eq_some'] at h
  obtain ⟨t, _, rfl⟩ := h
  exact ⟨rfl, rfl⟩

/-- C3: for an Alternative type with `n` variants there are `n` getters, and for
every `k < n` the `k`-th getter yields a present value, read from the payload
field `arg<k>`, exactly when `__active_index` equals `k`, and `null` otherwise;
hence for the discriminant `k` the getter at position `j` returns a present
value exactly when `j = k`. -/
theorem C3_getter_present_iff_active (m : Mangler) (underlying : List IRType) (k : Nat)
    (hk : k < underlying.length) (activeIndex : Int) :
    (emitGetterSettersAlternative m underlying).length = underlying.length ∧
    (∃ g : AlternativeGetter,
      (emitGetterSettersAlternative m underlying)[k]? = some g ∧
      g.get activeIndex
        = (if activeIndex = (k : Int) then
            some ⟨k, if isCSharpBuiltinType underlying[k] then none
                     else some (writeType m .Wrapped underlying[k])⟩
           else none)) ∧
    (∀ (j : Nat) (g : AlternativeGetter),
      (emitGetterSettersAlternative m underlying)[j]? = some g →
        ((g.get (k : Int)).isSome = true ↔ j = k)) := by
  refine ⟨by simp [emitGetterSettersAlternative], ?_, ?_⟩
  · have hget : underlying[k]? = some underlying[k] := List.getElem?_eq_getElem hk
    refine ⟨⟨writeType m .Wrapped underlying[k], isCSharpBuiltinType underlying[k], k, k⟩,
      ?_, ?_⟩
    · simp only [emitGetterSettersAlternative, List.getElem?_map, List.getElem?_enum, hget,
        Option.map_some']
    · simp [AlternativeGetter.get]
  · intro j g hg
    obtain ⟨hd, _⟩ := getter_at m underlying j g hg
    unfold AlternativeGetter.get
    rw [hd]
    by_cases h : (k : Int) = (j : Int)
    · rw [if_pos h]
      have : j = k := by omega
      simp [this]
    · rw [if_neg h]
      have : j ≠ k := by omega
      simp [this]

/-- Witness of C3: the alternative over `Integer` and `Bool` with the
discriminant 1; the getter of the integer variant yields `null` and the getter
of the boolean variant yields the payload `arg1`. -/
theorem C3_getter_present_iff_active_witness :
    1 < [Integer 64, Bool].length ∧
    (emitGetterSettersAlternative sampleMangler [Integer 64, Bool]).map
        (fun g => g.get 1) = [none, some ⟨1, none⟩] ∧
    (∀ (j : Nat) (g : AlternativeGetter),
      (emitGetterSettersAlternative sampleMangler [Integer 64, Bool])[j]? = some g →
        ((g.get ((1 : Nat) : Int)).isSome = true ↔ j = 1)) :=
  ⟨by decide, by decide,
    (C3_getter_present_iff_active sampleMangler [Integer 64, Bool] 1 (by decide) 1).2.2⟩

/-! ## C4: the bound check of an array indexer -/

/-- Helper: the indexer raises exactly when the bound is at most the index
modulo 2^32. -/
theorem Indexer.raises_iff (ix : Indexer) (i : Int) :
    ix.raises i = true ↔ ix.bound ≤ i % 4294967296 := by
  unfold Indexer.raises Indexer.get uintCast
  by_cases h : ix.bound ≤ i % 4294967296
  · have h' : i % 2 ^ 32 ≥ ix.bound := by norm_num; exact h
    rw [if_pos h']; simp [h]
  · have h' : ¬ i % 2 ^ 32 ≥ ix.bound := by norm_num; omega
    rw [if_neg h']; simp [h]

/-- C4: for an array of static length `N` with `0 ≤ N ≤ 2^31 - 1` and a 32-bit
signed index `i`, the guard `((uint) index) >= N` written by `emitArrayDecl`
raises the range error exactly when `i < 0` or `i ≥ N`. -/
theorem C4_index_guard_raises_iff_out_of_range (m : Mangler) (table : MemberFunctionsTable)
    (underlying : IRType) (N : Int) (typeSize elementSize : Nat) (i : Int)
    (hN0 : 0 ≤ N) (hN : N ≤ 2 ^ 31 - 1) (hi0 : -(2 ^ 31) ≤ i) (hi : i < 2 ^ 31) :
    (emitArrayDecl m table underlying N typeSize elementSize).indexer.bound = N ∧
    ((emitArrayDecl m table underlying N typeSize elementSize).indexer.raises i = true
      ↔ (i < 0 ∨ i ≥ N)) := by
  refine ⟨rfl, ?_⟩
  rw [Indexer.raises_iff]
  simp only [emitArrayDecl]
  norm_num at hN hi0 hi
  omega

/-- Witness of C4: an array of length 4; the index -1 raises, and of the indices
-1, 0, 1, 2, 3, 4 exactly the first and the last raise. -/
theorem C4_index_guard_raises_iff_out_of_range_witness :
    ((emitArrayDecl sampleMangler sampleTable (Integer 64) 4 32 8).indexer.raises (-1) = true
      ↔ ((-1 : Int) < 0 ∨ (-1 : Int) ≥ 4)) ∧
    [-1, 0, 1, 2, 3, 4].map
        (emitArrayDecl sampleMangler sampleTable (Integer 64) 4 32 8).indexer.raises
      = [true, false, false, false, false, true] :=
  ⟨(C4_index_guard_raises_iff_out_of_range sampleMangler sampleTable (Integer 64) 4 32 8 (-1)
      (by decide) (by decide) (by decide) (by decide)).2, by decide⟩

/-! ## C5, C6, C7: the special functions of a wrapper class -/

/-- C5: for every wrapped type `T`, the native calls in the constructors are
none in the borrowing one and, in the owning one, the call of `init` unless `T`
is trivially initializable; the only native call in the destructor is the call
of `drop`, present unless `T` is trivially destructible; and the method `assign`,
whose body is the native `assign` on `this` and `other`, is emitted unless `T`
is trivially copiable. -/
theorem C5_lifecycle_calls_follow_triviality (m : Mangler) (table : MemberFunctionsTable)
    (T : IRType) :
    (constructors (emitSpecialFunctions m table T)).map (fun c => nativeCalls c.body)
      = [[], if table.isTriviallyInitializable T then []
              else [m.mangledName "init" true ⟨[T], []⟩]] ∧
    (destructors (emitSpecialFunctions m table T)).map (fun d => nativeCalls d.body)
      = [if table.isTriviallyDestructible T then []
          else [m.mangledName "drop" true ⟨[T], []⟩]] ∧
    methods (emitSpecialFunctions m table T)
      = (if table.isTriviallyCopiable T then []
          else [.method "assign" (m.typeToMangled T ++ " other")
                  [.nativeCall (m.mangledName "assign" true ⟨[T, T], []⟩)
                    "(ref *this.__content, ref *other.__content);"]]) := by
  refine ⟨?_, ?_, ?_⟩
  · cases hi : table.isTriviallyInitializable T <;>
      cases hc : table.isTriviallyCopiable T <;>
      simp [emitSpecialFunctions, constructors, nativeCalls, Member.body, hi, hc]
  · cases hd : table.isTriviallyDestructible T <;>
      cases hc : table.isTriviallyCopiable T <;>
      simp [emitSpecialFunctions, destructors, nativeCalls, Member.body, hd, hc]
  · cases hc : table.isTriviallyCopiable T <;>
      simp [emitSpecialFunctions, methods, hc]

/-- C6 (as stated, refuted): the class `A` with the one member `x` of 32 bits.
The struct `Content` of its wrapper has the one field `sbyte x`, one byte in C#;
the owning constructor allocates `sizeof(A.Content)` bytes, so one byte in that
host, while the data layout gives the class four bytes. -/
theorem C6_buffer_is_not_the_layout_size :
    (emitClassMembers sampleMangler [("x", Integer 32)]).map (fun f => (f.type, f.name))
      = [("sbyte", "x")] ∧
    (constructors (emitSpecialFunctions sampleMangler sampleTable
        (Class "A" "A" [("x", Integer 32)]))).map Member.render
      = [ "public A(A.Content* referred) \x7b\nowning = false;\n__content = referred;\n\x7d\n",
          "public A() \x7b\n"
            ++ "__content = (A.Content*) Marshal.AllocHGlobal(sizeof(A.Content));\n"
            ++ "owning = true;\nRLCNative.rl_init(ref *this.__content);\n\x7d\n" ] ∧
    sampleHost.sizeofStruct "A.Content" = 1 ∧
    (constructors (emitSpecialFunctions sampleMangler sampleTable
        (Class "A" "A" [("x", Integer 32)]))).map
          (fun c => (runBody sampleHost 0 c.body ⟨false, 0⟩).2)
      = [[], [.alloc 1, .native "rl_init"]] ∧
    sampleSizeOf (Class "A" "A" [("x", Integer 32)]) = 4 := by
  refine ⟨by decide, rfl, by decide, by decide, rfl⟩

/-- C6 (amended): for every wrapped type `T` exactly two constructors are
emitted.  The borrowing one takes the raw handle `referred`; run from any state
it stores the handle, sets the ownership flag to false and allocates nothing.
The owning one takes no parameter; it first allocates as many bytes as the C#
expression `sizeof(<T>.Content)` gives in the host, whatever the data layout
says of `T`, and it sets the ownership flag to true. -/
theorem C6_borrowing_and_owning_constructor (m : Mangler) (table : MemberFunctionsTable)
    (T : IRType) (host : Host) (referred : Nat) (s : WrapperState) :
    (constructors (emitSpecialFunctions m table T)).map Member.parameters
      = [m.typeToMangled T ++ ".Content* referred", ""] ∧
    (constructors (emitSpecialFunctions m table T)).map
        (fun c => runBody host referred c.body s)
      = [ (⟨false, referred⟩, []),
          (⟨true, host.allocResult⟩,
            .alloc (host.sizeofStruct (m.typeToMangled T ++ ".Content"))
              :: (if table.isTriviallyInitializable T then []
                  else [.native (m.mangledName "init" true ⟨[T], []⟩)])) ] ∧
    (constructors (emitSpecialFunctions m table T)).map Member.render
      = [ "public " ++ m.typeToMangled T ++ "(" ++ (m.typeToMangled T ++ ".Content* referred")
            ++ ") \x7b\n"
            ++ ("owning = false;\n" ++ "__content = referred;\n") ++ "\x7d" ++ "\n",
          "public " ++ m.typeToMangled T ++ "(" ++ "" ++ ") \x7b\n"
            ++ ("__content = (" ++ m.typeToMangled T ++ ".Content*) Marshal.AllocHGlobal(sizeof("
                  ++ m.typeToMangled T ++ ".Content));\n"
                ++ "owning = true;\n"
                ++ (if table.isTriviallyInitializable T then ""
                    else "RLCNative." ++ m.mangledName "init" true ⟨[T], []⟩
                      ++ "(ref *this.__content);" ++ "\n"))
            ++ "\x7d" ++ "\n" ] := by
  have h0 : String.join [] = "" := rfl
  refine ⟨?_, ?_, ?_⟩
  · cases hi : table.isTriviallyInitializable T <;>
      cases hc : table.isTriviallyCopiable T <;>
      simp [emitSpecialFunctions, constructors, Member.parameters, hi, hc]
  · cases hi : table.isTriviallyInitializable T <;>
      cases hc : table.isTriviallyCopiable T <;>
      simp [emitSpecialFunctions, constructors, Member.body, runBody, Stmt.step, hi, hc]
  · cases hi : table.isTriviallyInitializable T <;>
      cases hc : table.isTriviallyCopiable T <;>
      simp only [emitSpecialFunctions, constructors, hi, hc, List.filter, List.map,
        Member.render, Stmt.render, join_cons, h0, Bool.not_true, Bool.not_false, if_true,
        if_false, Bool.false_eq_true, List.append_nil, List.cons_append, List.nil_append,
        String.append_assoc, String.append_empty]
    all_goals rfl

/-- C7: for every wrapped type `T` the one destructor begins with the test of
the ownership flag; run on a non-owning wrapper it returns at once, with no
native call and no release of the buffer; run on an owning wrapper it calls the
native `drop`, unless `T` is trivially destructible, and then releases the
buffer. -/
theorem C7_destructor_respects_ownership (m : Mangler) (table : MemberFunctionsTable)
    (T : IRType) (host : Host) (referred content : Nat) :
    (destructors (emitSpecialFunctions m table T)).map (fun d => d.body.head?)
      = [some .returnUnlessOwning] ∧
    (destructors (emitSpecialFunctions m table T)).map
        (fun d => runBody host referred d.body ⟨false, content⟩)
      = [(⟨false, content⟩, [])] ∧
    (destructors (emitSpecialFunctions m table T)).map
        (fun d => runBody host referred d.body ⟨true, content⟩)
      = [(⟨true, content⟩,
            (if table.isTriviallyDestructible T then []
              else [.native (m.mangledName "drop" true ⟨[T], []⟩)]) ++ [.free content])] := by
  cases hd : table.isTriviallyDestructible T <;>
    cases hc : table.isTriviallyCopiable T <;>
    simp [emitSpecialFunctions, destructors, Member.body, runBody, Stmt.step, hd, hc]

/-! ## C8, C9, C10: the two serializers -/

/-- C8: for every scalar type, that is `Bool`, `Float` and `Integer` of any
width, the Raw-mode serializer and the Wrapped-mode serializer render the same
text. -/
theorem C8_scalars_render_alike_in_both_modes (m : Mangler) (w : Nat) :
    writeType m .Raw Bool = writeType m .Wrapped Bool ∧
    writeType m .Raw Float = writeType m .Wrapped Float ∧
    writeType m .Raw (Integer w) = writeType m .Wrapped (Integer w) :=
  ⟨rfl, rfl, rfl⟩

/-- C9: in Raw and in Wrapped mode an `Integer` of width `w` is rendered `long`
when `w = 64` and `sbyte` for every other width, among them 16, 32 and widths
that are not supported otherwise. -/
theorem C9_integer_width_spelling (m : Mangler) (mode : Mode) (w : Nat) :
    writeType m mode (Integer w) = (if w = 64 then "long" else "sbyte") ∧
    writeType m mode (Integer 64) = "long" ∧
    writeType m mode (Integer 16) = "sbyte" ∧
    writeType m mode (Integer 32) = "sbyte" ∧
    writeType m mode (Integer 7) = "sbyte" := by
  cases mode <;> exact ⟨rfl, rfl, rfl, rfl, rfl⟩

/-- C10 (as stated, refuted): the Wrapped rendering of `OwningPointer` over the
class `A` is `A*`, which is not the Wrapped rendering `A` of the class. -/
theorem C10_owning_pointer_is_decorated :
    writeType sampleMangler .Wrapped (OwningPointer (Class "A" "A" [])) = "A*" ∧
    writeType sampleMangler .Wrapped (OwningPointer (Class "A" "A" []))
      ≠ writeType sampleMangler .Wrapped (Class "A" "A" []) := by
  decide

/-- C10 (amended): for every type `T`, hence for every Class, Alternative and
Array type, the Wrapped-mode serializer renders `Reference(T)` as exactly the
Wrapped rendering of `T`, and renders `OwningPointer(T)` as the Wrapped rendering
of `T` followed by `*`. -/
theorem C10_wrapped_reference_and_owning_pointer (m : Mangler) (T : IRType) :
    writeType m .Wrapped (Reference T) = writeType m .Wrapped T ∧
    writeType m .Wrapped (OwningPointer T) = writeType m .Wrapped T ++ "*" :=
  ⟨rfl, rfl⟩

/-! ## Helpers on separated lists -/

/-- Helper: the accumulator of `String.intercalate` can be split off in front. -/
theorem intercalate_go_append (s : String) (l : List String) :
    ∀ x acc : String, String.intercalate.go (x ++ acc) s l = x ++ String.intercalate.go acc s l := by
  induction l with
  | nil => intro x acc; rfl
  | cons a l ih =>
    intro x acc
    simp only [String.intercalate.go]
    rw [String.append_assoc, String.append_assoc, ih, String.append_assoc]

/-- Helper: `intercalate` of a list with at least two entries. -/
theorem intercalate_cons_cons (s a b : String) (l : List String) :
    s.intercalate (a :: b :: l) = a ++ s ++ s.intercalate (b :: l) := by
  simp only [String.intercalate, String.intercalate.go]
  rw [intercalate_go_append]

/-- Helper: `intercalate` of a single entry. -/
theorem intercalate_singleton (s a : String) : s.intercalate [a] = a := rfl

/-- Helper: when the loop counter reaches `args.size()` exactly at the end of the
list, the parameter loop of `writeFunctionArgs` writes the entries separated by
`, `, with no separator after the last one. -/
theorem writeFunctionArgsLoop_eq (m : Mangler) (b : Bool) (n : Nat) :
    ∀ (l : List (IRType × String)) (index : Nat), index + l.length = n →
      writeFunctionArgsLoop m b n index l
        = ", ".intercalate (l.map fun p =>
            (if b then "ref " else "") ++ writeType m (modeOfFlag b) p.1 ++ " "
              ++ writeName p.2) := by
  intro l
  induction l with
  | nil => intro index _; rfl
  | cons p l ih =>
    intro index h
    obtain ⟨type, name⟩ := p
    cases l with
    | nil =>
      have h1 : ¬ (index + 1 ≠ n) := by simpa using h
      simp only [writeFunctionArgsLoop, if_neg h1, List.map, intercalate_singleton,
        String.append_empty]
    | cons q l =>
      have h1 : index + 1 ≠ n := by simp at h; omega
      have h2 : index + 1 + (q :: l).length = n := by simp at h ⊢; omega
      rw [writeFunctionArgsLoop, if_pos h1, ih (index + 1) h2]
      simp only [List.map, intercalate_cons_cons, String.append_assoc]

/-- Helper: the parameter list `writeFunctionArgs` writes for a declaration
(`isBuiltinDeclaration` set, no receiver dropped). -/
theorem writeFunctionArgs_declaration (m : Mangler) (types : List IRType)
    (args : List String) (returnType : IRType) (hlen : args.length ≤ types.length) :
    writeFunctionArgs m types args returnType true
      = "(" ++ ", ".intercalate
          ((if isVoid returnType then []
            else ["ref " ++ writeType m .Raw returnType ++ " __result"])
            ++ (types.zip args).map fun p =>
                "ref " ++ writeType m .Raw p.1 ++ " " ++ writeName p.2) ++ ")" := by
  have hzip : 0 + (types.zip args).length = args.length := by
    simp only [List.length_zip]; omega
  have hloop := writeFunctionArgsLoop_eq m true args.length (types.zip args) 0 hzip
  simp only [modeOfFlag, if_true] at hloop
  unfold writeFunctionArgs writeFunctionArgsResult
  simp only [Bool.false_eq_true, if_false, List.drop_zero]
  rw [hloop]
  cases hv : isVoid returnType
  · cases args with
    | nil =>
      simp only [List.zip_nil_right, List.map_nil, List.append_nil, Bool.false_eq_true,
        if_false, intercalate_singleton, List.isEmpty_nil, Bool.not_true, List.length_nil,
        Bool.or_true, Bool.and_false, Bool.or_false, if_true, String.append_empty]
      have h0 : ", ".intercalate [] = "" := rfl
      rw [h0, String.append_empty]
    | cons a args =>
      cases types with
      | nil => simp at hlen
      | cons t types =>
        simp only [List.zip_cons_cons, List.map, Bool.false_eq_true, if_false,
          List.singleton_append, intercalate_cons_cons, List.isEmpty_cons, Bool.not_false,
          Bool.or_true, Bool.true_or, if_true, String.append_assoc]
  · simp only [if_true, List.nil_append, String.append_assoc]
    rfl

/-- Helper: the parameter list `writeFunctionArgs` writes for a wrapper
(`isBuiltinDeclaration` not set, result `Void`), after dropping `toDrop`
leading parameters. -/
theorem writeFunctionArgs_wrapper (m : Mangler) (types : List IRType) (args : List String)
    (isMemberFunction : Bool)
    (hlen : (if isMemberFunction then 1 else 0)
      + ((types.zip args).drop (if isMemberFunction then 1 else 0)).length = args.length) :
    writeFunctionArgs m types args .Void false isMemberFunction
      = "(" ++ ", ".intercalate
          (((types.zip args).drop (if isMemberFunction then 1 else 0)).map fun p =>
            writeType m .Wrapped p.1 ++ " " ++ writeName p.2) ++ ")" := by
  have hloop := writeFunctionArgsLoop_eq m false args.length
    ((types.zip args).drop (if isMemberFunction then 1 else 0))
    (if isMemberFunction then 1 else 0) hlen
  simp only [modeOfFlag, Bool.false_eq_true, if_false, String.empty_append] at hloop
  unfold writeFunctionArgs writeFunctionArgsResult
  simp only [isVoid, if_true, String.append_empty]
  rw [hloop]

/-- Helper: the element at `index` when the list from `index` on is known. -/
theorem getD_of_drop_eq_cons (types : List IRType) (index : Nat) (t : IRType)
    (ts : List IRType) (h : types.drop index = t :: ts) :
    types.getD index .Void = t ∧ types.drop (index + 1) = ts := by
  constructor
  · have h0 : (types.drop index)[0]? = some t := by rw [h]; simp
    rw [List.getElem?_drop] at h0
    simp only [Nat.add_zero] at h0
    simp [List.getD_eq_getElem?_getD, h0]
  · have h1 : (types.drop index).drop 1 = ts := by rw [h]; rfl
    simpa [List.drop_drop, Nat.add_comm] using h1

/-- Helper: the argument loop of `emitMemberFunctionsWrapper` writes one entry
per remaining argument, in order, separated by `, `. -/
theorem memberCallArgs_eq (types : List IRType) (n : Nat) :
    ∀ (as : List String) (ts : List IRType) (index : Nat), as.length ≤ ts.length →
      types.drop index = ts → index + as.length = n →
      memberCallArgs types n index as
        = ", ".intercalate ((ts.zip as).map fun p =>
            "ref " ++ (if !isCSharpBuiltinType p.1 then "*" else "") ++ p.2
              ++ (if !isCSharpBuiltinType p.1 then ".__content" else "")) := by
  intro as
  induction as with
  | nil => intro ts index _ _ _; simp [memberCallArgs]; rfl
  | cons a as ih =>
    intro ts index hlen hdrop hn
    cases ts with
    | nil => simp at hlen
    | cons t ts =>
      obtain ⟨hget, hdrop1⟩ := getD_of_drop_eq_cons types index t ts hdrop
      have hlen1 : as.length ≤ ts.length := by simpa using hlen
      have hn1 : index + 1 + as.length = n := by simp at hn; omega
      rw [memberCallArgs, ih ts (index + 1) hlen1 hdrop1 hn1, writeCallArg, hget]
      cases as with
      | nil =>
        have h1 : ¬ (index + 1 ≠ n) := by simpa using hn
        have h0 : ", ".intercalate [] = "" := rfl
        simp only [if_neg h1, List.zip_cons_cons, List.zip_nil_right, List.zipWith_nil_right,
          List.map_cons, List.map_nil, intercalate_singleton, String.append_empty, h0]
      | cons b as =>
        cases ts with
        | nil => simp at hlen1
        | cons u ts =>
          have h1 : index + 1 ≠ n := by simp at hn; omega
          simp only [if_pos h1, List.zip_cons_cons, List.map, intercalate_cons_cons,
            String.append_assoc]

/-- Helper: the argument loop of `emitFreeFunctionsWrapper` is the loop of the
member wrapper on the names passed through `writeName`. -/
theorem freeCallArgs_eq_member (types : List IRType) (n : Nat) :
    ∀ (as : List String) (index : Nat),
      freeCallArgs types n index as = memberCallArgs types n index (as.map writeName) := by
  intro as
  induction as with
  | nil => intro index; rfl
  | cons a as ih => intro index; simp only [freeCallArgs, memberCallArgs, List.map, ih]

/-- Helper: a type that is not a C# builtin type is not a `Reference`. -/
theorem depthOfReference_of_not_builtin (t : IRType) (h : isCSharpBuiltinType t = false) :
    depthOfReference t = 0 := by
  cases t <;> simp_all [isCSharpBuiltinType, depthOfReference]

/-- Helper: the result slot of the native call in a member wrapper is always
written; the branch that calls `abort()` is never taken. -/
theorem memberResultSlot_eq (returnType : IRType) :
    memberResultSlot returnType
      = .ok (if isVoid returnType then ""
             else if isCSharpBuiltinType returnType then "ref __result" ++ ", "
             else "ref " ++ "*" ++ "__result.__content" ++ ", ") := by
  unfold memberResultSlot
  cases hv : isVoid returnType
  · cases hb : isCSharpBuiltinType returnType
    · have hd := depthOfReference_of_not_builtin returnType hb
      simp [hd]
    · simp
  · simp

/-- Helper: an entry followed by a separated list. -/
theorem intercalate_cons_eq (s a : String) (l : List String) :
    s.intercalate (a :: l) = a ++ (if l.isEmpty then "" else s) ++ s.intercalate l := by
  cases l with
  | nil =>
    have h0 : s.intercalate [] = "" := rfl
    simp only [intercalate_singleton, List.isEmpty_nil, if_true, h0, String.append_empty]
  | cons b l =>
    simp only [intercalate_cons_cons, List.isEmpty_cons, Bool.false_eq_true, if_false]

/-- Helper: the whole text of a member wrapper whose argument list starts with
the receiver. -/
theorem emitMemberFunctionsWrapper_shape (m : Mangler) (mangledName name : String)
    (receiverType : IRType) (restTypes : List IRType) (receiver : String)
    (rest : List String) (returnType : IRType) (hlen : rest.length ≤ restTypes.length) :
    emitMemberFunctionsWrapper m mangledName name (receiverType :: restTypes)
        (receiver :: rest) returnType
      = .ok ("public " ++ writeType m .Wrapped returnType ++ " " ++ name
          ++ ("(" ++ ", ".intercalate ((restTypes.zip rest).map fun p =>
                writeType m .Wrapped p.1 ++ " " ++ writeName p.2) ++ ")")
          ++ "\x7b\n"
          ++ emitReturnVariable m returnType
          ++ ("RLCNative." ++ mangledName ++ "("
              ++ ", ".intercalate
                  ((if isVoid returnType then []
                    else [if isCSharpBuiltinType returnType then "ref __result"
                          else "ref *__result.__content"])
                    ++ "ref *this.__content" :: (restTypes.zip rest).map fun p =>
                        "ref " ++ (if !isCSharpBuiltinType p.1 then "*" else "") ++ p.2
                          ++ (if !isCSharpBuiltinType p.1 then ".__content" else ""))
              ++ ");\n")
          ++ memberReturn m returnType
          ++ "\x7d\n" ++ "\n") := by
  have hargs := writeFunctionArgs_wrapper m (receiverType :: restTypes) (receiver :: rest) true
    (by simp only [if_true, List.zip_cons_cons, List.drop_succ_cons, List.drop_zero,
          List.length_zip, List.length_cons]; omega)
  simp only [if_true, List.zip_cons_cons, List.drop_succ_cons, List.drop_zero] at hargs
  have hcall := memberCallArgs_eq (receiverType :: restTypes) (receiver :: rest).length rest
    restTypes 1 hlen rfl (by simp only [List.length_cons]; omega)
  have hguard : ((receiver :: rest).isEmpty
      || decide ((receiverType :: restTypes).length < (receiver :: rest).length)) = false := by
    simp only [List.isEmpty_cons, List.length_cons, Bool.false_or, decide_eq_false_iff_not]
    omega
  have hpart : ∀ tail : String,
      (if isVoid returnType then ""
        else if isCSharpBuiltinType returnType then "ref __result" ++ ", "
        else "ref " ++ "*" ++ "__result.__content" ++ ", ")
        ++ ("ref *this.__content" ++ ((if (receiver :: rest).length ≠ 1 then ", " else "")
        ++ (", ".intercalate ((restTypes.zip rest).map fun p =>
              "ref " ++ (if !isCSharpBuiltinType p.1 then "*" else "") ++ p.2
                ++ (if !isCSharpBuiltinType p.1 then ".__content" else "")) ++ tail)))
      = ", ".intercalate
          ((if isVoid returnType then []
            else [if isCSharpBuiltinType returnType then "ref __result"
                  else "ref *__result.__content"])
            ++ "ref *this.__content" :: (restTypes.zip rest).map fun p =>
                "ref " ++ (if !isCSharpBuiltinType p.1 then "*" else "") ++ p.2
                  ++ (if !isCSharpBuiltinType p.1 then ".__content" else "")) ++ tail := by
    intro tail
    have hsep : (if (receiver :: rest).length ≠ 1 then ", " else "")
        = (if ((restTypes.zip rest).map fun p =>
              "ref " ++ (if !isCSharpBuiltinType p.1 then "*" else "") ++ p.2
                ++ (if !isCSharpBuiltinType p.1 then ".__content" else "")).isEmpty
           then "" else ", ") := by
      cases rest with
      | nil => simp
      | cons b rest =>
        cases restTypes with
        | nil => simp at hlen
        | cons u restTypes => simp
    rw [hsep]
    cases hv : isVoid returnType
    · cases hb : isCSharpBuiltinType returnType
      · simp only [Bool.false_eq_true, if_false, List.singleton_append,
          intercalate_cons_eq, List.isEmpty_cons, String.append_assoc]
        rfl
      · simp only [Bool.false_eq_true, if_false, if_true, List.singleton_append,
          intercalate_cons_eq, List.isEmpty_cons, String.append_assoc]
    · simp only [if_true, List.nil_append, intercalate_cons_eq, String.append_assoc,
        String.empty_append]
  unfold emitMemberFunctionsWrapper
  rw [hguard, memberResultSlot_eq, hargs]
  simp only [Bool.false_eq_true, if_false, List.drop_succ_cons, List.drop_zero]
  rw [hcall]
  simp only [String.append_assoc] at hpart ⊢
  rw [hpart]

/-- Helper: the argument loop of `emitFreeFunctionsWrapper` writes one entry per
argument, in order, separated by `, `. -/
theorem freeCallArgs_eq (types : List IRType) (args : List String)
    (hlen : args.length ≤ types.length) :
    freeCallArgs types args.length 0 args
      = ", ".intercalate ((types.zip args).map fun p =>
          "ref " ++ (if !isCSharpBuiltinType p.1 then "*" else "") ++ writeName p.2
            ++ (if !isCSharpBuiltinType p.1 then ".__content" else "")) := by
  rw [freeCallArgs_eq_member,
    memberCallArgs_eq types args.length (args.map writeName) types 0 (by simpa using hlen) rfl
      (by simp)]
  simp only [List.zip_map_right, List.map_map]
  rfl

/-- Helper: the whole text of a free-function wrapper. -/
theorem emitFreeFunctionsWrapper_shape (m : Mangler) (mangledName name : String)
    (types : List IRType) (args : List String) (returnType : IRType)
    (hlen : args.length ≤ types.length) :
    emitFreeFunctionsWrapper m mangledName name types args returnType
      = .ok ("public static " ++ writeType m .Wrapped returnType ++ " " ++ name
          ++ ("(" ++ ", ".intercalate ((types.zip args).map fun p =>
                writeType m .Wrapped p.1 ++ " " ++ writeName p.2) ++ ")")
          ++ "\x7b\n"
          ++ emitReturnVariable m returnType
          ++ ("RLCNative." ++ mangledName ++ "("
              ++ ", ".intercalate
                  ((if isVoid returnType then []
                    else ["ref " ++ (if !isCSharpBuiltinType returnType then "*" else "")
                            ++ "__result"
                            ++ (if !isCSharpBuiltinType returnType then ".__content" else "")])
                    ++ (types.zip args).map fun p =>
                        "ref " ++ (if !isCSharpBuiltinType p.1 then "*" else "")
                          ++ writeName p.2
                          ++ (if !isCSharpBuiltinType p.1 then ".__content" else ""))
              ++ ");\n")
          ++ freeReturn returnType
          ++ "\x7d\n" ++ "\n") := by
  have hargs := writeFunctionArgs_wrapper m types args false
    (by simp only [Bool.false_eq_true, if_false, List.drop_zero, List.length_zip]; omega)
  simp only [Bool.false_eq_true, if_false, List.drop_zero] at hargs
  have hcall := freeCallArgs_eq types args hlen
  have hguard : ¬ types.length < args.length := by omega
  have hpart : ∀ tail : String,
      freeResultSlot args returnType
        ++ (", ".intercalate ((types.zip args).map fun p =>
              "ref " ++ (if !isCSharpBuiltinType p.1 then "*" else "") ++ writeName p.2
                ++ (if !isCSharpBuiltinType p.1 then ".__content" else "")) ++ tail)
      = ", ".intercalate
          ((if isVoid returnType then []
            else ["ref " ++ (if !isCSharpBuiltinType returnType then "*" else "")
                    ++ "__result"
                    ++ (if !isCSharpBuiltinType returnType then ".__content" else "")])
            ++ (types.zip args).map fun p =>
                "ref " ++ (if !isCSharpBuiltinType p.1 then "*" else "") ++ writeName p.2
                  ++ (if !isCSharpBuiltinType p.1 then ".__content" else "")) ++ tail := by
    intro tail
    unfold freeResultSlot
    have hsep : (if (!args.isEmpty) = true then ", " else "")
        = (if ((types.zip args).map fun p =>
              "ref " ++ (if !isCSharpBuiltinType p.1 then "*" else "") ++ writeName p.2
                ++ (if !isCSharpBuiltinType p.1 then ".__content" else "")).isEmpty
           then "" else ", ") := by
      cases args with
      | nil => simp
      | cons b args =>
        cases types with
        | nil => simp at hlen
        | cons u types => simp
    rw [hsep]
    cases hv : isVoid returnType
    · simp only [Bool.false_eq_true, if_false, List.singleton_append,
        intercalate_cons_eq, String.append_assoc]
    · simp only [if_true, List.nil_append, String.empty_append]
  unfold emitFreeFunctionsWrapper
  rw [if_neg hguard, hargs, hcall]
  simp only [String.append_assoc] at hpart ⊢
  rw [hpart]

/-! ## C11: the delegate declaration -/

/-- C11: for a native function with as many parameter types as parameter names,
`declareFunction` writes a delegate that returns `void` and whose parameter list
is `(`, the entries separated by `, `, `)`.  The entries are, only when the
result type is not `Void`, the leading result slot `ref <Raw result> __result`,
and then one entry `ref <Raw type> <name>` for every parameter, the first one
included; their number is the number of parameters, plus one for a non-void
result. -/
theorem C11_delegate_parameter_list (m : Mangler) (mangledName : String)
    (types : List IRType) (args : List String) (returnType : IRType) (st : Declared)
    (hlen : types.length = args.length) :
    ∃ entries : List String,
      entries
        = (if isVoid returnType then []
            else ["ref " ++ writeType m .Raw returnType ++ " __result"])
          ++ (types.zip args).map (fun p =>
              "ref " ++ writeType m .Raw p.1 ++ " " ++ writeName p.2) ∧
      entries.length = args.length + (if isVoid returnType then 0 else 1) ∧
      (declareFunction m mangledName types args returnType st).written
        = st.written ++ [⟨mangledName, "(" ++ ", ".intercalate entries ++ ")",
            mangledName, mangledName⟩] ∧
      Delegate.render ⟨mangledName, "(" ++ ", ".intercalate entries ++ ")",
            mangledName, mangledName⟩
        = "public delegate void Delegate" ++ mangledName
            ++ ("(" ++ ", ".intercalate entries ++ ")") ++ ";\n"
            ++ "public static Delegate" ++ mangledName ++ " " ++ mangledName ++ ";\n" := by
  refine ⟨_, rfl, ?_, ?_, rfl⟩
  · cases hv : isVoid returnType <;> simp [hlen]
  · unfold declareFunction
    rw [writeFunctionArgs_declaration m types args returnType (by omega)]

/-- Witness of C11: a function with a receiver, a parameter named `out` and a
`Bool` result. -/
theorem C11_delegate_parameter_list_witness :
    (declareFunction sampleMangler "rl_f" [Class "A" "A" [], Integer 64] ["self", "out"] Bool
        ⟨[], []⟩).written.map Delegate.render
      = ["public delegate void Delegaterl_f"
          ++ "(ref bool __result, ref A.Content self, ref long _out);\n"
          ++ "public static Delegaterl_f rl_f;\n"] := by
  obtain ⟨entries, he, _, hw, _⟩ := C11_delegate_parameter_list sampleMangler "rl_f"
    [Class "A" "A" [], Integer 64] ["self", "out"] Bool ⟨[], []⟩ (by decide)
  rw [hw, he]
  rfl

/-! ## C12: the name of the result slot -/

/-- C12 (as stated, refuted): a parameter named `__result` is written unchanged,
so the delegate of a function with a `Bool` result and such a parameter has two
parameters named `__result`. -/
theorem C12_parameter_named_result_collides :
    writeName "__result" = "__result" ∧
    writeFunctionArgs sampleMangler [Integer 64] ["__result"] Bool true
      = "(ref bool __result, ref long __result)" := by
  decide

/-- Helper: `writeName` puts the prefix `_` before the name `out` and before no
other name. -/
theorem writeName_eq (name : String) :
    writeName name = (if name = "out" then "_out" else name) := by
  unfold writeName
  by_cases h : name = "out"
  · subst h; decide
  · simp [h]

/-- C12 (amended): in every parameter list the generator writes for a function
with a type for each parameter name (the delegate of the declaration pass, the
signature of the free-function wrapper and the signature of the member-function
wrapper, which leaves out the receiver), a parameter named `out` is written
`_out` and every other parameter is written under its own name.  No name is
compared with `__result`, so a parameter of that name is written unchanged after
the result slot `__result`. -/
theorem C12_parameter_lists_prefix_only_the_name_out (m : Mangler)
    (mangledName name : String) (receiverType : IRType) (receiver : String)
    (types : List IRType) (args : List String) (returnType : IRType) (st : Declared)
    (hlen : args.length ≤ types.length) :
    (declareFunction m mangledName types args returnType st).written
      = st.written ++ [⟨mangledName,
          "(" ++ ", ".intercalate
            ((if isVoid returnType then []
              else ["ref " ++ writeType m .Raw returnType ++ " __result"])
              ++ (types.zip args).map fun p =>
                  "ref " ++ writeType m .Raw p.1 ++ " "
                    ++ (if p.2 = "out" then "_out" else p.2)) ++ ")",
          mangledName, mangledName⟩] ∧
    emitFreeFunctionsWrapper m mangledName name types args returnType
      = .ok ("public static " ++ writeType m .Wrapped returnType ++ " " ++ name
          ++ ("(" ++ ", ".intercalate ((types.zip args).map fun p =>
                writeType m .Wrapped p.1 ++ " " ++ (if p.2 = "out" then "_out" else p.2))
              ++ ")")
          ++ "\x7b\n"
          ++ emitReturnVariable m returnType
          ++ ("RLCNative." ++ mangledName ++ "("
              ++ ", ".intercalate
                  ((if isVoid returnType then []
                    else ["ref " ++ (if !isCSharpBuiltinType returnType then "*" else "")
                            ++ "__result"
                            ++ (if !isCSharpBuiltinType returnType then ".__content" else "")])
                    ++ (types.zip args).map fun p =>
                        "ref " ++ (if !isCSharpBuiltinType p.1 then "*" else "")
                          ++ (if p.2 = "out" then "_out" else p.2)
                          ++ (if !isCSharpBuiltinType p.1 then ".__content" else ""))
              ++ ");\n")
          ++ freeReturn returnType
          ++ "\x7d\n" ++ "\n") ∧
    emitMemberFunctionsWrapper m mangledName name (receiverType :: types) (receiver :: args)
        returnType
      = .ok ("public " ++ writeType m .Wrapped returnType ++ " " ++ name
          ++ ("(" ++ ", ".intercalate ((types.zip args).map fun p =>
                writeType m .Wrapped p.1 ++ " " ++ (if p.2 = "out" then "_out" else p.2))
              ++ ")")
          ++ "\x7b\n"
          ++ emitReturnVariable m returnType
          ++ ("RLCNative." ++ mangledName ++ "("
              ++ ", ".intercalate
                  ((if isVoid returnType then []
                    else [if isCSharpBuiltinType returnType then "ref __result"
                          else "ref *__result.__content"])
                    ++ "ref *this.__content" :: (types.zip args).map fun p =>
                        "ref " ++ (if !isCSharpBuiltinType p.1 then "*" else "") ++ p.2
                          ++ (if !isCSharpBuiltinType p.1 then ".__content" else ""))
              ++ ");\n")
          ++ memberReturn m returnType
          ++ "\x7d\n" ++ "\n") := by
  have h1 := writeFunctionArgs_declaration m types args returnType hlen
  have h2 := emitFreeFunctionsWrapper_shape m mangledName name types args returnType hlen
  have h3 := emitMemberFunctionsWrapper_shape m mangledName name receiverType types receiver
    args returnType hlen
  simp only [writeName_eq] at h1 h2 h3
  refine ⟨?_, h2, h3⟩
  unfold declareFunction
  rw [h1]

/-- Witness of C12 (amended): a function with the parameters `out` and
`__result` and a `Bool` result: in the delegate and in both signatures the first
is written `_out` and the second `__result`. -/
theorem C12_parameter_lists_prefix_only_the_name_out_witness :
    (declareFunction sampleMangler "rl_f" [Integer 64, Integer 64] ["out", "__result"] Bool
        ⟨[], []⟩).written.map Delegate.render
      = ["public delegate void Delegaterl_f"
          ++ "(ref bool __result, ref long _out, ref long __result);\n"
          ++ "public static Delegaterl_f rl_f;\n"] ∧
    emitFreeFunctionsWrapper sampleMangler "rl_f" "f" [Integer 64, Integer 64]
        ["out", "__result"] Bool
      = .ok ("public static bool f(long _out, long __result)\x7b\nbool __result = false;\n"
          ++ "RLCNative.rl_f(ref __result, ref _out, ref __result);\n"
          ++ "return __result;\n\x7d\n\n") ∧
    emitMemberFunctionsWrapper sampleMangler "rl_f" "f"
        [Class "A" "A" [], Integer 64, Integer 64] ["self", "out", "__result"] Bool
      = .ok ("public bool f(long _out, long __result)\x7b\nbool __result = false;\n"
          ++ "RLCNative.rl_f(ref __result, ref *this.__content, ref out, ref __result);\n"
          ++ "return __result;\n\x7d\n\n") := by
  have h := C12_parameter_lists_prefix_only_the_name_out sampleMangler "rl_f" "f"
    (Class "A" "A" []) "self" [Integer 64, Integer 64] ["out", "__result"] Bool ⟨[], []⟩
    (by decide)
  refine ⟨?_, h.2.1.trans rfl, h.2.2.trans rfl⟩
  rw [h.1]
  rfl

/-! ## C13: the return statement of a wrapper -/

/-- C13 (the code at the failing input): for the result type `Reference(A)` of a
class `A`, the member wrapper returns `new A(__result)`, but the free-function
wrapper declares the result `A` and returns `* __result`, the dereferenced
handle, without constructing a wrapper. -/
theorem C13_free_wrapper_returns_the_dereferenced_handle :
    emitMemberFunctionsWrapper sampleMangler "rl_g" "g" [Class "B" "B" []] ["self"]
        (Reference (Class "A" "A" []))
      = .ok ("public A g()\x7b\nA.Content* __result = null;\n"
          ++ "RLCNative.rl_g(ref __result, ref *this.__content);\n"
          ++ "return new A(__result);\n\x7d\n\n") ∧
    emitFreeFunctionsWrapper sampleMangler "rl_f" "f" [] [] (Reference (Class "A" "A" []))
      = .ok ("public static A f()\x7b\nA.Content* __result = null;\n"
          ++ "RLCNative.rl_f(ref __result);\n"
          ++ "return* __result;\n\x7d\n\n") :=
  ⟨rfl, rfl⟩

/-! ## C14: the receiver -/

/-- C14: a member-function or action-step wrapper whose argument list starts
with the receiver lists every parameter but the receiver, in order, and its
native call passes the result slot, if the result is not `Void`, then
`ref *this.__content`, then the remaining arguments in their declared order.  A
free-function wrapper lists all of its parameters and its native call passes
the result slot, if any, and then all of the arguments in order; `this` is not
among them. -/
theorem C14_receiver_is_passed_by_member_wrappers_only (m : Mangler)
    (mangledName name : String) (receiverType : IRType) (restTypes : List IRType)
    (receiver : String) (rest : List String) (types : List IRType) (args : List String)
    (returnType : IRType)
    (hmember : rest.length ≤ restTypes.length) (hfree : args.length ≤ types.length) :
    emitMemberFunctionsWrapper m mangledName name (receiverType :: restTypes)
        (receiver :: rest) returnType
      = .ok ("public " ++ writeType m .Wrapped returnType ++ " " ++ name
          ++ ("(" ++ ", ".intercalate ((restTypes.zip rest).map fun p =>
                writeType m .Wrapped p.1 ++ " " ++ writeName p.2) ++ ")")
          ++ "\x7b\n"
          ++ emitReturnVariable m returnType
          ++ ("RLCNative." ++ mangledName ++ "("
              ++ ", ".intercalate
                  ((if isVoid returnType then []
                    else [if isCSharpBuiltinType returnType then "ref __result"
                          else "ref *__result.__content"])
                    ++ "ref *this.__content" :: (restTypes.zip rest).map fun p =>
                        "ref " ++ (if !isCSharpBuiltinType p.1 then "*" else "") ++ p.2
                          ++ (if !isCSharpBuiltinType p.1 then ".__content" else ""))
              ++ ");\n")
          ++ memberReturn m returnType
          ++ "\x7d\n" ++ "\n") ∧
    emitFreeFunctionsWrapper m mangledName name types args returnType
      = .ok ("public static " ++ writeType m .Wrapped returnType ++ " " ++ name
          ++ ("(" ++ ", ".intercalate ((types.zip args).map fun p =>
                writeType m .Wrapped p.1 ++ " " ++ writeName p.2) ++ ")")
          ++ "\x7b\n"
          ++ emitReturnVariable m returnType
          ++ ("RLCNative." ++ mangledName ++ "("
              ++ ", ".intercalate
                  ((if isVoid returnType then []
                    else ["ref " ++ (if !isCSharpBuiltinType returnType then "*" else "")
                            ++ "__result"
                            ++ (if !isCSharpBuiltinType returnType then ".__content" else "")])
                    ++ (types.zip args).map fun p =>
                        "ref " ++ (if !isCSharpBuiltinType p.1 then "*" else "")
                          ++ writeName p.2
                          ++ (if !isCSharpBuiltinType p.1 then ".__content" else ""))
              ++ ");\n")
          ++ freeReturn returnType
          ++ "\x7d\n" ++ "\n") :=
  ⟨emitMemberFunctionsWrapper_shape m mangledName name receiverType restTypes receiver rest
      returnType hmember,
    emitFreeFunctionsWrapper_shape m mangledName name types args returnType hfree⟩

/-- Witness of C14: a member wrapper and a free wrapper over the same two
parameters after the receiver. -/
theorem C14_receiver_is_passed_by_member_wrappers_only_witness :
    emitMemberFunctionsWrapper sampleMangler "rl_f" "f"
        [Class "A" "A" [], Integer 64, Class "B" "B" []] ["self", "x", "b"] Bool
      = .ok ("public bool f(long x, B b)\x7b\nbool __result = false;\n"
          ++ "RLCNative.rl_f(ref __result, ref *this.__content, ref x, ref *b.__content);\n"
          ++ "return __result;\n\x7d\n\n") ∧
    emitFreeFunctionsWrapper sampleMangler "rl_f" "f"
        [Integer 64, Class "B" "B" []] ["x", "b"] Bool
      = .ok ("public static bool f(long x, B b)\x7b\nbool __result = false;\n"
          ++ "RLCNative.rl_f(ref __result, ref x, ref *b.__content);\n"
          ++ "return __result;\n\x7d\n\n") := by
  have h := C14_receiver_is_passed_by_member_wrappers_only sampleMangler "rl_f" "f"
    (Class "A" "A" []) [Integer 64, Class "B" "B" []] "self" ["x", "b"]
    [Integer 64, Class "B" "B" []] ["x", "b"] Bool (by decide) (by decide)
  exact ⟨h.1.trans rfl, h.2.trans rfl⟩

/-! ## C15: accessors of a class -/

/-- C15: for every class, `emitGetterSetters` writes one accessor for each
member whose name does not start with `_`, in member order, and none for the
other members; in the struct `Content` every member is declared, `private`
exactly when its name starts with `_`. -/
theorem C15_hidden_members_have_no_accessor (m : Mangler)
    (members : List (String × IRType)) :
    (emitGetterSettersClass m members).map Accessor.name
      = (members.map Prod.fst).filter (fun name => !name.startsWith "_") ∧
    emitGetterSettersClass m members
      = (members.filter (fun member => !member.1.startsWith "_")).map (fun member =>
          ⟨writeType m .Wrapped member.2, member.1, isCSharpBuiltinType member.2⟩) ∧
    (emitClassMembers m members).map (fun f => (f.name, f.hidden))
      = members.map (fun member => (member.1, member.1.startsWith "_")) := by
  have h2 : emitGetterSettersClass m members
      = (members.filter (fun member => !member.1.startsWith "_")).map (fun member =>
          ⟨writeType m .Wrapped member.2, member.1, isCSharpBuiltinType member.2⟩) := by
    induction members with
    | nil => rfl
    | cons member members ih =>
      obtain ⟨name, type⟩ := member
      cases h : name.startsWith "_" <;> simp [emitGetterSettersClass, h, ih]
  refine ⟨?_, h2, ?_⟩
  · rw [h2]
    simp only [List.map_map, List.filter_map]
    rfl
  · simp [emitClassMembers, List.map_map, Function.comp_def]

/-! ## C16: internal functions and actions -/

/-- Helper: the declaration pass and the free-function wrapper pass write
nothing and record nothing for an internal function or action. -/
theorem internal_ops_are_skipped_by_the_matchers (m : Mangler) (f : FunctionOp)
    (a : ActionFunction) (st : Declared) :
    (f.isInternal = true →
      CSharpFunctionDeclarationMatcher.apply m f st = st ∧
      CSharpFunctionWrappersMatcher.apply m f = .ok "") ∧
    (a.isInternal = true →
      CSharpActionDeclarationMatcher.apply m a st = st ∧
      CSharpActionWrappersMatcher.apply m a = .ok "") := by
  constructor
  · intro h
    simp [CSharpFunctionDeclarationMatcher.apply, CSharpFunctionWrappersMatcher.apply, h]
  · intro h
    simp [CSharpActionDeclarationMatcher.apply, CSharpActionWrappersMatcher.apply, h]

set_option maxRecDepth 8000 in
/-- C16 (the code at the failing input): for the internal action `_play` with
the one step `pick`, the declaration pass declares and records nothing and the
free-function wrapper pass writes nothing, but `emitActionDecl` still writes the
methods `pick`, `can_pick` and `is_done` into the class wrapper, each calling a
native symbol that was never declared; likewise `emitMemberFunction` writes the
wrapper of an internal member function. -/
theorem C16_internal_action_still_gets_step_wrappers :
    sampleInternalAction.isInternal = true ∧
    CSharpActionDeclarationMatcher.apply sampleMangler sampleInternalAction ⟨[], []⟩
      = ⟨[], []⟩ ∧
    CSharpActionWrappersMatcher.apply sampleMangler sampleInternalAction = .ok "" ∧
    emitActionMethods sampleMangler sampleInternalAction
      = .ok ("public void pick(long x)\x7b\n"
          ++ "RLCNative.rl_pick(ref *this.__content, ref x);\n\x7d\n\n"
          ++ "public bool can_pick(long x)\x7b\nbool __result = false;\n"
          ++ "RLCNative.rl_can_pick(ref __result, ref *this.__content, ref x);\n"
          ++ "return __result;\n\x7d\n\n"
          ++ "public bool is_done()\x7b\nbool __result = false;\n"
          ++ "RLCNative.rl_is_done(ref __result, ref *this.__content);\n"
          ++ "return __result;\n\x7d\n\n") ∧
    sampleInternalMember.isInternal = true ∧
    emitMemberFunction sampleMangler sampleInternalMember
      = .ok ("public void _reset()\x7b\n"
          ++ "RLCNative.rl__reset(ref *this.__content);\n\x7d\n\n") := by
  refine ⟨rfl, rfl, rfl, rfl, rfl, rfl⟩

/-! ## C17: the recorded symbols -/

/-- Helper: the loop over the action statements records, for each statement in
order, the step symbol and then its `can_` symbol, and declares a slot of each
of these names. -/
theorem declareActionStatements_records (m : Mangler) :
    ∀ (actions : List ActionStatement) (st : Declared),
      (declareActionStatements m actions st).declaredFunNames
        = st.declaredFunNames ++ actions.flatMap (fun a =>
            [m.mangledName a.name true a.type,
             m.mangledName ("can_" ++ a.name) true ⟨a.type.inputs, [.Bool]⟩]) ∧
      (declareActionStatements m actions st).written.map Delegate.slot
        = st.written.map Delegate.slot ++ actions.flatMap (fun a =>
            [m.mangledName a.name true a.type,
             m.mangledName ("can_" ++ a.name) true ⟨a.type.inputs, [.Bool]⟩]) := by
  intro actions
  induction actions with
  | nil => intro st; simp [declareActionStatements]
  | cons a actions ih =>
    intro st
    simp only [declareActionStatements, List.flatMap_cons]
    constructor
    · rw [(ih _).1]; simp [declareFunction]
    · rw [(ih _).2]; simp [declareFunction]

/-- C17: the declaration pass records exactly the symbols it declares.  One call
of `declareFunction` writes one delegate and one slot, both named after the
symbol, and appends the symbol once.  A function that is not internal adds its
mangled name and then, only when it has a precondition, its can-function name.
An action that is not internal adds its name, its can-function name when it has
a precondition, then for each step the step symbol and its `can_` symbol, then
the `is_done` symbol: `2k + 2` names for `k` steps and no precondition.  The
slots declared are in every case the names recorded. -/
theorem C17_recorded_symbols_are_the_declared_ones (m : Mangler) (symbol : String)
    (types : List IRType) (args : List String) (returnType : IRType)
    (f : FunctionOp) (a : ActionFunction) (st : Declared) :
    (declareFunction m symbol types args returnType st
      = ⟨st.written ++ [⟨symbol, writeFunctionArgs m types args returnType true,
            symbol, symbol⟩],
          st.declaredFunNames ++ [symbol]⟩) ∧
    ((CSharpFunctionDeclarationMatcher.apply m f st).declaredFunNames
      = st.declaredFunNames
        ++ (if f.isInternal then []
            else f.mangledName
              :: (if f.hasPrecondition then [f.canFunctionMangledName] else []))) ∧
    ((CSharpFunctionDeclarationMatcher.apply m f st).written.map Delegate.slot
      = st.written.map Delegate.slot
        ++ (if f.isInternal then []
            else f.mangledName
              :: (if f.hasPrecondition then [f.canFunctionMangledName] else []))) ∧
    ((CSharpActionDeclarationMatcher.apply m a st).declaredFunNames
      = st.declaredFunNames
        ++ (if a.isInternal then []
            else a.mangledName
              :: ((if a.hasPrecondition then [a.canFunctionMangledName] else [])
                ++ a.actions.flatMap (fun s =>
                    [m.mangledName s.name true s.type,
                     m.mangledName ("can_" ++ s.name) true ⟨s.type.inputs, [.Bool]⟩])
                ++ [m.mangledName "is_done" true ⟨[a.classType], [.Bool]⟩]))) ∧
    ((CSharpActionDeclarationMatcher.apply m a st).written.map Delegate.slot
      = st.written.map Delegate.slot
        ++ (if a.isInternal then []
            else a.mangledName
              :: ((if a.hasPrecondition then [a.canFunctionMangledName] else [])
                ++ a.actions.flatMap (fun s =>
                    [m.mangledName s.name true s.type,
                     m.mangledName ("can_" ++ s.name) true ⟨s.type.inputs, [.Bool]⟩])
                ++ [m.mangledName "is_done" true ⟨[a.classType], [.Bool]⟩]))) ∧
    ((CSharpActionDeclarationMatcher.apply m a st).declaredFunNames.length
      = st.declaredFunNames.length
        + (if a.isInternal then 0
           else 2 * a.actions.length + 2 + (if a.hasPrecondition then 1 else 0))) := by
  have hnames : (CSharpActionDeclarationMatcher.apply m a st).declaredFunNames
      = st.declaredFunNames
        ++ (if a.isInternal then []
            else a.mangledName
              :: ((if a.hasPrecondition then [a.canFunctionMangledName] else [])
                ++ a.actions.flatMap (fun s =>
                    [m.mangledName s.name true s.type,
                     m.mangledName ("can_" ++ s.name) true ⟨s.type.inputs, [.Bool]⟩])
                ++ [m.mangledName "is_done" true ⟨[a.classType], [.Bool]⟩])) := by
    unfold CSharpActionDeclarationMatcher.apply
    cases hi : a.isInternal
    · cases hp : a.hasPrecondition <;>
        simp [declareFunction, (declareActionStatements_records m a.actions _).1]
    · simp
  refine ⟨rfl, ?_, ?_, hnames, ?_, ?_⟩
  · unfold CSharpFunctionDeclarationMatcher.apply
    cases hi : f.isInternal <;> cases hp : f.hasPrecondition <;> simp [declareFunction]
  · unfold CSharpFunctionDeclarationMatcher.apply
    cases hi : f.isInternal <;> cases hp : f.hasPrecondition <;> simp [declareFunction]
  · unfold CSharpActionDeclarationMatcher.apply
    cases hi : a.isInternal
    · cases hp : a.hasPrecondition <;>
        simp [declareFunction, (declareActionStatements_records m a.actions _).2]
    · simp
  · rw [hnames]
    have hlen : ∀ l : List ActionStatement, (l.flatMap (fun s =>
        [m.mangledName s.name true s.type,
         m.mangledName ("can_" ++ s.name) true ⟨s.type.inputs, [.Bool]⟩])).length
        = 2 * l.length := by
      intro l
      induction l with
      | nil => rfl
      | cons s l ih => simp only [List.flatMap_cons, List.length_append, ih,
          List.length_cons, List.length_nil]; omega
    cases hi : a.isInternal <;> cases hp : a.hasPrecondition <;> simp [hlen]

/-! ## C18: the symbols of `setup` and `teardown` -/

/-- Helper: the statements of the symbol loop of `setup`, symbol by symbol. -/
theorem setupLoop_eq_flatMap (L : List String) :
    setupLoop L = L.flatMap (fun s => [.lookup s s, .requireSymbol s s, .bind s s s]) := by
  induction L with
  | nil => rfl
  | cons s L ih => simp [setupLoop, ih]

/-- Helper: the text of the symbol loop of `setup`, symbol by symbol. -/
theorem setupLoop_text (L : List String) :
    String.join ((setupLoop L).map BridgeStmt.render)
      = String.join (L.map fun s =>
          "IntPtr " ++ s ++ "_ptr = GetProcAddress(_lib, \"" ++ s ++ "\");" ++ "\n"
            ++ "if (" ++ s
            ++ "_ptr == IntPtr.Zero) throw new Exception(\"Could not find symbol "
            ++ s ++ "\");" ++ "\n"
            ++ s ++ " = Marshal.GetDelegateForFunctionPointer<Delegate" ++ s ++ ">(" ++ s
            ++ "_ptr);" ++ "\n") := by
  induction L with
  | nil => rfl
  | cons s L ih =>
    simp only [setupLoop, List.map_cons, join_cons, ih, BridgeStmt.render, String.append_assoc]

/-- Helper: the text of the loop of `teardown`, symbol by symbol. -/
theorem teardownLoop_text (L : List String) :
    String.join ((L.map BridgeStmt.clearSlot).map BridgeStmt.render)
      = String.join (L.map fun s => s ++ " = null;" ++ "\n") := by
  induction L with
  | nil => rfl
  | cons s L ih =>
    simp only [List.map_cons, join_cons, ih, BridgeStmt.render, String.append_assoc]

/-- C18: for every recorded symbol list `L`, the text `emitSetTearDown` writes is
the fixed head, the method `setup` and the method `teardown`.  After the loading
of the library, `setup` consists, for each symbol of `L` once and in list order,
of the lookup of that name, the check whose message names it and the binding of
the slot of that name, and of nothing else; `teardown` tests `_lib`, sets to
`null` exactly the slots of `L`, in order, and releases the library; and every
name either body mentions is a symbol of `L`. -/
theorem C18_setup_and_teardown_cover_the_recorded_symbols (L : List String) :
    emitSetTearDown L
      = "internal static string SharedLibExtension =>\n"
        ++ " RuntimeInformation.IsOSPlatform(OSPlatform.Windows) ? \".dll\" :\n"
        ++ "RuntimeInformation.IsOSPlatform(OSPlatform.OSX)     ? \".dylib\" :\n"
        ++ "/* default to Linux */ \".so\";\n"
        ++ "private static IntPtr _lib;\n"
        ++ "public static void setup(string libName) \x7b\n"
        ++ "_lib = RLCNative.LoadLibrary(libName);"
        ++ "if (_lib == IntPtr.Zero) throw new Exception(\"Could not find library \" + libName );"
        ++ String.join (L.map fun s =>
            "IntPtr " ++ s ++ "_ptr = GetProcAddress(_lib, \"" ++ s ++ "\");" ++ "\n"
              ++ "if (" ++ s
              ++ "_ptr == IntPtr.Zero) throw new Exception(\"Could not find symbol "
              ++ s ++ "\");" ++ "\n"
              ++ s ++ " = Marshal.GetDelegateForFunctionPointer<Delegate" ++ s ++ ">(" ++ s
              ++ "_ptr);" ++ "\n")
        ++ "\x7d\n" ++ "\n"
        ++ "public static void teardown() \x7b\n"
        ++ "if (_lib == IntPtr.Zero) return;\n"
        ++ String.join (L.map fun s => s ++ " = null;" ++ "\n")
        ++ "RLCNative.FreeLibrary(_lib);" ++ "_lib = IntPtr.Zero;\n"
        ++ "\x7d\n" ++ "\n" ∧
    (setupBody L).map BridgeStmt.render
      = "_lib = RLCNative.LoadLibrary(libName);"
        :: "if (_lib == IntPtr.Zero) throw new Exception(\"Could not find library \" + libName );"
        :: L.flatMap (fun s =>
            [ "IntPtr " ++ s ++ "_ptr = GetProcAddress(_lib, \"" ++ s ++ "\");" ++ "\n",
              "if (" ++ s ++ "_ptr == IntPtr.Zero) throw new Exception(\"Could not find symbol "
                ++ s ++ "\");" ++ "\n",
              s ++ " = Marshal.GetDelegateForFunctionPointer<Delegate" ++ s ++ ">(" ++ s
                ++ "_ptr);" ++ "\n" ]) ∧
    (teardownBody L).map BridgeStmt.render
      = "if (_lib == IntPtr.Zero) return;\n"
        :: (L.map (fun s => s ++ " = null;" ++ "\n")
            ++ ["RLCNative.FreeLibrary(_lib);", "_lib = IntPtr.Zero;\n"]) ∧
    setupBody L
      = .loadLibrary :: .requireLibrary
          :: L.flatMap (fun s => [.lookup s s, .requireSymbol s s, .bind s s s]) ∧
    (setupBody L).filterMap BridgeStmt.lookedUp = L ∧
    (setupBody L).filterMap BridgeStmt.checked = L ∧
    (setupBody L).filterMap BridgeStmt.bound = L ∧
    (teardownBody L).filterMap BridgeStmt.cleared = L ∧
    (setupBody L ++ teardownBody L).flatMap BridgeStmt.names ⊆ L := by
  have htext : emitSetTearDown L
      = "internal static string SharedLibExtension =>\n"
        ++ " RuntimeInformation.IsOSPlatform(OSPlatform.Windows) ? \".dll\" :\n"
        ++ "RuntimeInformation.IsOSPlatform(OSPlatform.OSX)     ? \".dylib\" :\n"
        ++ "/* default to Linux */ \".so\";\n"
        ++ "private static IntPtr _lib;\n"
        ++ "public static void setup(string libName) \x7b\n"
        ++ "_lib = RLCNative.LoadLibrary(libName);"
        ++ "if (_lib == IntPtr.Zero) throw new Exception(\"Could not find library \" + libName );"
        ++ String.join (L.map fun s =>
            "IntPtr " ++ s ++ "_ptr = GetProcAddress(_lib, \"" ++ s ++ "\");" ++ "\n"
              ++ "if (" ++ s
              ++ "_ptr == IntPtr.Zero) throw new Exception(\"Could not find symbol "
              ++ s ++ "\");" ++ "\n"
              ++ s ++ " = Marshal.GetDelegateForFunctionPointer<Delegate" ++ s ++ ">(" ++ s
              ++ "_ptr);" ++ "\n")
        ++ "\x7d\n" ++ "\n"
        ++ "public static void teardown() \x7b\n"
        ++ "if (_lib == IntPtr.Zero) return;\n"
        ++ String.join (L.map fun s => s ++ " = null;" ++ "\n")
        ++ "RLCNative.FreeLibrary(_lib);" ++ "_lib = IntPtr.Zero;\n"
        ++ "\x7d\n" ++ "\n" := by
    unfold emitSetTearDown setupBody teardownBody
    simp only [List.map_cons, List.map_append, List.map_nil, join_cons, join_append,
      setupLoop_text, teardownLoop_text, BridgeStmt.render, String.append_assoc]
    rfl
  have hsetup : ∀ l : List String, (setupLoop l).map BridgeStmt.render
      = l.flatMap (fun s =>
          [ "IntPtr " ++ s ++ "_ptr = GetProcAddress(_lib, \"" ++ s ++ "\");" ++ "\n",
            "if (" ++ s ++ "_ptr == IntPtr.Zero) throw new Exception(\"Could not find symbol "
              ++ s ++ "\");" ++ "\n",
            s ++ " = Marshal.GetDelegateForFunctionPointer<Delegate" ++ s ++ ">(" ++ s
              ++ "_ptr);" ++ "\n" ]) := by
    intro l
    induction l with
    | nil => rfl
    | cons s l ih =>
      simp only [setupLoop, List.map_cons, ih, BridgeStmt.render, List.flatMap_cons,
        List.cons_append, List.nil_append]
  have hteardown : (teardownBody L).map BridgeStmt.render
      = "if (_lib == IntPtr.Zero) return;\n"
        :: (L.map (fun s => s ++ " = null;" ++ "\n")
            ++ ["RLCNative.FreeLibrary(_lib);", "_lib = IntPtr.Zero;\n"]) := by
    simp only [teardownBody, List.map_cons, List.map_append, List.map_map, List.map_nil,
      BridgeStmt.render]
    rfl
  have h1 : ∀ l : List String, (setupLoop l).filterMap BridgeStmt.lookedUp = l := by
    intro l
    induction l with
    | nil => rfl
    | cons s l ih => simp [setupLoop, BridgeStmt.lookedUp, ih]
  have h2 : ∀ l : List String, (setupLoop l).filterMap BridgeStmt.checked = l := by
    intro l
    induction l with
    | nil => rfl
    | cons s l ih => simp [setupLoop, BridgeStmt.checked, ih]
  have h3 : ∀ l : List String, (setupLoop l).filterMap BridgeStmt.bound = l := by
    intro l
    induction l with
    | nil => rfl
    | cons s l ih => simp [setupLoop, BridgeStmt.bound, ih]
  have h4 : ∀ l : List String,
      (l.map BridgeStmt.clearSlot).filterMap BridgeStmt.cleared = l := by
    intro l
    induction l with
    | nil => rfl
    | cons s l ih => simpa [BridgeStmt.cleared] using ih
  have h5 : ∀ l : List String, (setupLoop l).flatMap BridgeStmt.names ⊆ l := by
    intro l
    induction l with
    | nil => simp [setupLoop]
    | cons s l ih =>
      intro x hx
      simp only [setupLoop, List.flatMap_cons, BridgeStmt.names, List.mem_append,
        List.mem_cons, List.mem_singleton, List.not_mem_nil, or_false] at hx
      rcases hx with hx | hx | hx | hx
      · rcases hx with hx | hx <;> simp [hx]
      · rcases hx with hx | hx <;> simp [hx]
      · rcases hx with hx | hx | hx <;> simp [hx]
      · exact List.mem_cons_of_mem _ (ih hx)
  have h6 : (L.map BridgeStmt.clearSlot).flatMap BridgeStmt.names ⊆ L := by
    intro x hx
    simp only [List.mem_flatMap, List.mem_map] at hx
    obtain ⟨st, ⟨s, hs, rfl⟩, hx⟩ := hx
    simp only [BridgeStmt.names, List.mem_singleton] at hx
    rw [hx]; exact hs
  refine ⟨htext, ?_, hteardown, ?_, ?_, ?_, ?_, ?_, ?_⟩
  · simp only [setupBody, List.map_cons, hsetup, BridgeStmt.render]
  · simp [setupBody, setupLoop_eq_flatMap]
  · simpa [setupBody, BridgeStmt.lookedUp] using h1 L
  · simpa [setupBody, BridgeStmt.checked] using h2 L
  · simpa [setupBody, BridgeStmt.bound] using h3 L
  · simpa [teardownBody, BridgeStmt.cleared] using h4 L
  · intro x hx
    simp only [setupBody, teardownBody, List.flatMap_append, List.flatMap_cons,
      BridgeStmt.names, List.nil_append, List.mem_append, List.cons_append,
      List.flatMap_nil, List.append_nil] at hx
    rcases hx with hx | hx
    · exact h5 L hx
    · exact h6 hx

/-! ## C19: `teardown` -/

/-- Helper: `teardown` does nothing when no library is loaded. -/
theorem teardown_without_library (loader : Loader) (libName : String) (L : List String)
    (st : BridgeState) (h : st.lib = 0) :
    runBridge loader libName (teardownBody L) st = (st, .returned) := by
  simp [teardownBody, runBridge, BridgeStmt.exec, h]

/-- Helper: the statements of `teardown` after the test of `_lib`. -/
theorem teardown_clears (loader : Loader) (libName : String) :
    ∀ (L : List String) (st : BridgeState),
      (runBridge loader libName
          (L.map BridgeStmt.clearSlot ++ [.freeLibrary, .resetLibrary]) st).2 = .finished ∧
      (runBridge loader libName
          (L.map BridgeStmt.clearSlot ++ [.freeLibrary, .resetLibrary]) st).1.lib = 0 ∧
      (runBridge loader libName
          (L.map BridgeStmt.clearSlot ++ [.freeLibrary, .resetLibrary]) st).1.released
        = st.released ++ [st.lib] ∧
      ∀ x, (runBridge loader libName
          (L.map BridgeStmt.clearSlot ++ [.freeLibrary, .resetLibrary]) st).1.slots x
        = if x ∈ L then none else st.slots x := by
  intro L
  induction L with
  | nil => intro st; simp [runBridge, BridgeStmt.exec]
  | cons s L ih =>
    intro st
    simp only [List.map_cons, List.cons_append, runBridge, BridgeStmt.exec]
    obtain ⟨h1, h2, h3, h4⟩ := ih
      { lib := st.lib
        slots := fun x => if x = s then none else st.slots x
        locals := st.locals
        released := st.released }
    refine ⟨h1, h2, h3, ?_⟩
    intro x
    refine (h4 x).trans ?_
    by_cases hx : x ∈ L
    · simp [hx]
    · by_cases hxs : x = s
      · simp [hxs]
      · simp [hx, hxs]

/-- C19: `teardown` does nothing when no library is loaded.  Otherwise it sets
the slot of every recorded symbol to `null`, passes the handle to `FreeLibrary`
and resets `_lib` to `IntPtr.Zero`.  A second run of `teardown` right after the
first returns at once and leaves the state of the first. -/
theorem C19_teardown_is_idempotent (loader : Loader) (libName : String) (L : List String)
    (st : BridgeState) :
    (st.lib = 0 → runBridge loader libName (teardownBody L) st = (st, .returned)) ∧
    (st.lib ≠ 0 →
      (runBridge loader libName (teardownBody L) st).2 = .finished ∧
      (runBridge loader libName (teardownBody L) st).1.lib = 0 ∧
      (runBridge loader libName (teardownBody L) st).1.released = st.released ++ [st.lib] ∧
      ∀ x, (runBridge loader libName (teardownBody L) st).1.slots x
        = if x ∈ L then none else st.slots x) ∧
    runBridge loader libName (teardownBody L)
        (runBridge loader libName (teardownBody L) st).1
      = ((runBridge loader libName (teardownBody L) st).1, .returned) := by
  have hrun : st.lib ≠ 0 →
      runBridge loader libName (teardownBody L) st
        = runBridge loader libName
            (L.map BridgeStmt.clearSlot ++ [.freeLibrary, .resetLibrary]) st := by
    intro h
    simp [teardownBody, runBridge, BridgeStmt.exec, h]
  refine ⟨teardown_without_library loader libName L st, ?_, ?_⟩
  · intro h
    rw [hrun h]
    exact teardown_clears loader libName L st
  · apply teardown_without_library
    by_cases h : st.lib = 0
    · rw [teardown_without_library loader libName L st h]; exact h
    · rw [hrun h]; exact (teardown_clears loader libName L st).2.1

/-- Witness of C19: `teardown` after a successful `setup` of the symbols `a`
and `b`: both slots are `null` again, the handle 1 has been released and `_lib`
is `IntPtr.Zero`. -/
theorem C19_teardown_is_idempotent_witness :
    (runBridge sampleLoader "lib.so" (setupBody ["a", "b"]) initialBridge).1.lib ≠ 0 ∧
    (runBridge sampleLoader "lib.so" (teardownBody ["a", "b"])
        (runBridge sampleLoader "lib.so" (setupBody ["a", "b"]) initialBridge).1).1.lib = 0 ∧
    (runBridge sampleLoader "lib.so" (teardownBody ["a", "b"])
        (runBridge sampleLoader "lib.so" (setupBody ["a", "b"]) initialBridge).1).1.released
      = [1] ∧
    ["a", "b"].map (runBridge sampleLoader "lib.so" (teardownBody ["a", "b"])
        (runBridge sampleLoader "lib.so" (setupBody ["a", "b"]) initialBridge).1).1.slots
      = [none, none] := by
  have h := (C19_teardown_is_idempotent sampleLoader "lib.so" ["a", "b"]
    (runBridge sampleLoader "lib.so" (setupBody ["a", "b"]) initialBridge).1).2.1 (by decide)
  refine ⟨by decide, h.2.1, h.2.2.1.trans (by decide), ?_⟩
  simp only [List.map, h.2.2.2]
  decide

/-! ## C20: the platform families -/

set_option maxRecDepth 8000 in
/-- C20 (the code at the failing input): with `isMac` not set and `isWindows`
set, `emitDLLImporters` writes the four lines of the Windows block and nothing
else, but the one line that declares `LoadLibrary` does not end its declaration
(no `;`), and neither does the constant `KERNEL` the three imports refer to.
For the other settings of the flags each of the three names is declared by one
line, which ends its declaration.  For every setting the lines name one
library only (`kernel32`, `libSystem.B.dylib` or `libdl.so.2`, by the flags) and
every `DllImport` refers to the constant of that block. -/
theorem C20_windows_block_leaves_load_library_unfinished :
    emitDLLImporters false true
      = [ "const string KERNEL = \"kernel32\"\n",
          "[DllImport(KERNEL, SetLastError = true)] static extern "
            ++ "IntPtr LoadLibrary(string path) ",
          "[DllImport(KERNEL, SetLastError = true)] static extern "
            ++ "bool FreeLibrary(IntPtr hModule);",
          "[DllImport(KERNEL)]                      static extern "
            ++ "IntPtr GetProcAddress(IntPtr h, string name);" ] ∧
    ["LoadLibrary", "FreeLibrary", "GetProcAddress"].map (fun name =>
        ((emitDLLImporters false true).filter (mentions name)).map isCompleteDeclaration)
      = [[false], [true], [true]] ∧
    ((emitDLLImporters false true).filter isConstantDeclaration).map isCompleteDeclaration
      = [false] ∧
    [(true, false), (true, true), (false, false)].map (fun flags =>
        ["LoadLibrary", "FreeLibrary", "GetProcAddress"].map fun name =>
          ((emitDLLImporters flags.1 flags.2).filter (mentions name)).map
            isCompleteDeclaration)
      = [ [[true], [true], [true]], [[true], [true], [true]], [[true], [true], [true]] ] ∧
    [(false, true), (true, false), (true, true), (false, false)].map (fun flags =>
        ["libSystem.B.dylib", "kernel32", "libdl.so.2"].filter fun library =>
          (emitDLLImporters flags.1 flags.2).any (mentions library))
      = [["kernel32"], ["libSystem.B.dylib"], ["libSystem.B.dylib"], ["libdl.so.2"]] ∧
    [(false, true), (true, false), (true, true), (false, false)].map (fun flags =>
        ((emitDLLImporters flags.1 flags.2).filter (mentions "[DllImport(")).map fun line =>
          (mentions "[DllImport(LIBDL" line, mentions "[DllImport(KERNEL" line))
      = [ [(false, true), (false, true), (false, true)],
          [(true, false), (true, false), (true, false)],
          [(true, false), (true, false), (true, false)],
          [(true, false), (true, false), (true, false), (true, false)] ] := by
  refine ⟨rfl, ?_, ?_, ?_, ?_, ?_⟩ <;> decide

/-! ## C21: the buffer of an array wrapper -/

/-- C21 (as stated, refuted): called for an array of 4 elements with the type
size 16 and the element size 3 (an element padded to 4 bytes), `emitArrayDecl`
writes a buffer of 16 bytes, not of 4 × 3 bytes. -/
theorem C21_buffer_is_not_count_times_element_size :
    (emitArrayDecl sampleMangler sampleTable (Integer 24) 4 16 3).contentBytes = 16 ∧
    (emitArrayDecl sampleMangler sampleTable (Integer 24) 4 16 3).contentBytes ≠ 4 * 3 := by
  decide

/-- C21 (amended): the struct `Content` written by `emitArrayDecl` is a fixed
byte buffer of exactly `typeSize` bytes, which the driver sets to the byte size
the data layout reports for the whole array type; the element size is passed
but not used.  The buffer therefore has `n × s` bytes exactly when the data
layout reports `n × s` bytes for the array type. -/
theorem C21_buffer_has_the_size_of_the_array_type (m : Mangler)
    (table : MemberFunctionsTable) (sizeOf : IRType → Nat) (underlying : IRType)
    (arraySize : Int) (typeSize elementSize otherElementSize : Nat) :
    (emitArrayDecl m table underlying arraySize typeSize elementSize).contentBytes
      = typeSize ∧
    emitArrayDecl m table underlying arraySize typeSize elementSize
      = emitArrayDecl m table underlying arraySize typeSize otherElementSize ∧
    (runOnOperationArray m table sizeOf underlying arraySize).contentBytes
      = sizeOf (.Array underlying arraySize) ∧
    ((runOnOperationArray m table sizeOf underlying arraySize).contentBytes
        = arraySize.toNat * sizeOf underlying
      ↔ sizeOf (.Array underlying arraySize) = arraySize.toNat * sizeOf underlying) :=
  ⟨rfl, rfl, rfl, Iff.rfl⟩

/-! ## C22: the methods of an action class -/

/-- Helper: the text of a member wrapper names the method and calls the symbol
it was given. -/
theorem emitMemberFunctionsWrapper_calls (m : Mangler) (mangledName name : String)
    (types : List IRType) (rest : List String) (returnType : IRType)
    (hlen : rest.length + 1 ≤ types.length) :
    ∃ text returns parameters result arguments ending,
      emitMemberFunctionsWrapper m mangledName name types ("self" :: rest) returnType
        = .ok text ∧
      text = "public " ++ returns ++ " " ++ name ++ ("(" ++ parameters ++ ")") ++ "\x7b\n"
        ++ result ++ ("RLCNative." ++ mangledName ++ "(" ++ arguments ++ ");\n") ++ ending := by
  cases types with
  | nil => simp at hlen
  | cons t ts =>
    have hrest : rest.length ≤ ts.length := by simpa using hlen
    refine ⟨_, writeType m .Wrapped returnType,
      ", ".intercalate ((ts.zip rest).map fun p =>
        writeType m .Wrapped p.1 ++ " " ++ writeName p.2),
      emitReturnVariable m returnType,
      ", ".intercalate
        ((if isVoid returnType then []
          else [if isCSharpBuiltinType returnType then "ref __result"
                else "ref *__result.__content"])
          ++ "ref *this.__content" :: (ts.zip rest).map fun p =>
              "ref " ++ (if !isCSharpBuiltinType p.1 then "*" else "") ++ p.2
                ++ (if !isCSharpBuiltinType p.1 then ".__content" else "")),
      memberReturn m returnType ++ "\x7d\n" ++ "\n",
      emitMemberFunctionsWrapper_shape m mangledName name t ts "self" rest returnType hrest, ?_⟩
    simp only [String.append_assoc]

/-- Helper: for action statements with a type for the receiver and for every
argument, the loop of `emitActionDecl` writes two methods per statement, the
step and its `can_` predicate, each calling its own symbol. -/
theorem emitActionStatements_methods (m : Mangler) :
    ∀ actions : List ActionStatement,
      (∀ s ∈ actions, s.argumentNames.length + 1 ≤ s.type.inputs.length) →
      ∃ texts : List String,
        emitAll (actions.map (emitActionStatement m)) = .ok (String.join texts) ∧
        List.Forall₂
          (fun (text : String) (method : String × String) =>
            ∃ returns parameters result arguments ending,
              text = "public " ++ returns ++ " " ++ method.1 ++ ("(" ++ parameters ++ ")")
                ++ "\x7b\n" ++ result
                ++ ("RLCNative." ++ method.2 ++ "(" ++ arguments ++ ");\n") ++ ending)
          texts
          (actions.flatMap fun s =>
            [(s.name, m.mangledName s.name true s.type),
             ("can_" ++ s.name,
               m.mangledName ("can_" ++ s.name) true ⟨s.type.inputs, [.Bool]⟩)]) := by
  intro actions
  induction actions with
  | nil => intro _; exact ⟨[], rfl, List.Forall₂.nil⟩
  | cons s actions ih =>
    intro hwf
    obtain ⟨texts, hok, hall⟩ := ih (fun x hx => hwf x (List.mem_cons_of_mem _ hx))
    have hs := hwf s (List.mem_cons_self _ _)
    obtain ⟨t1, r1, p1, l1, a1, e1, hok1, ht1⟩ := emitMemberFunctionsWrapper_calls m
      (m.mangledName s.name true s.type) s.name s.type.inputs s.argumentNames
      (getResultType s.type) hs
    obtain ⟨t2, r2, p2, l2, a2, e2, hok2, ht2⟩ := emitMemberFunctionsWrapper_calls m
      (m.mangledName ("can_" ++ s.name) true ⟨s.type.inputs, [.Bool]⟩) ("can_" ++ s.name)
      s.type.inputs s.argumentNames .Bool hs
    refine ⟨t1 :: t2 :: texts, ?_, ?_⟩
    · have hb : getResultType ⟨s.type.inputs, [.Bool]⟩ = .Bool := rfl
      have hstmt : emitActionStatement m s = .ok (t1 ++ t2) := by
        simp only [emitActionStatement, hb, hok1, hok2, andThen]
      simp only [List.map_cons, emitAll, hstmt, hok, andThen, join_cons, String.append_assoc]
    · simp only [List.flatMap_cons, List.cons_append, List.nil_append]
      exact List.Forall₂.cons ⟨r1, p1, l1, a1, e1, ht1⟩
        (List.Forall₂.cons ⟨r2, p2, l2, a2, e2, ht2⟩ hall)

/-- Helper: for every action with `k` steps, each with a type for the receiver
and for every argument, `emitActionDecl` writes after the class content `2k + 1`
methods: for each step in order the step wrapper and its `can_` wrapper, then
`is_done`.  Each method calls the native symbol `mangledName` gives for its
name, the member flag and its function type.  The declaration pass records
these symbols, in the same order, only for an action that is not internal. -/
theorem action_methods_call_the_mangled_symbols (m : Mangler) (op : ActionFunction)
    (st : Declared)
    (hwf : ∀ s ∈ op.actions, s.argumentNames.length + 1 ≤ s.type.inputs.length) :
    ∃ (texts : List String) (methods : List (String × String)),
      methods
        = (op.actions.flatMap fun s =>
            [(s.name, m.mangledName s.name true s.type),
             ("can_" ++ s.name,
               m.mangledName ("can_" ++ s.name) true ⟨s.type.inputs, [.Bool]⟩)])
          ++ [("is_done", m.mangledName "is_done" true ⟨[op.classType], [.Bool]⟩)] ∧
      emitActionMethods m op = .ok (String.join texts) ∧
      texts.length = 2 * op.actions.length + 1 ∧
      List.Forall₂
        (fun (text : String) (method : String × String) =>
          ∃ returns parameters result arguments ending,
            text = "public " ++ returns ++ " " ++ method.1 ++ ("(" ++ parameters ++ ")")
              ++ "\x7b\n" ++ result
              ++ ("RLCNative." ++ method.2 ++ "(" ++ arguments ++ ");\n") ++ ending)
        texts methods ∧
      (declareFunction m (m.mangledName "is_done" true ⟨[op.classType], [.Bool]⟩)
          [op.classType] ["self"] .Bool
          (declareActionStatements m op.actions st)).declaredFunNames
        = st.declaredFunNames ++ methods.map Prod.snd ∧
      (CSharpActionDeclarationMatcher.apply m op st).declaredFunNames
        = st.declaredFunNames
          ++ (if op.isInternal then []
              else op.mangledName
                :: ((if op.hasPrecondition then [op.canFunctionMangledName] else [])
                  ++ methods.map Prod.snd)) := by
  obtain ⟨texts, hok, hall⟩ := emitActionStatements_methods m op.actions hwf
  obtain ⟨t3, r3, p3, l3, a3, e3, hok3, ht3⟩ := emitMemberFunctionsWrapper_calls m
    (m.mangledName "is_done" true ⟨[op.classType], [.Bool]⟩) "is_done" [op.classType] []
    .Bool (by simp)
  have hsym : ((op.actions.flatMap fun s =>
        [(s.name, m.mangledName s.name true s.type),
         ("can_" ++ s.name,
           m.mangledName ("can_" ++ s.name) true ⟨s.type.inputs, [.Bool]⟩)])
        ++ [("is_done", m.mangledName "is_done" true ⟨[op.classType], [.Bool]⟩)]).map Prod.snd
      = (op.actions.flatMap fun s =>
          [m.mangledName s.name true s.type,
           m.mangledName ("can_" ++ s.name) true ⟨s.type.inputs, [.Bool]⟩])
        ++ [m.mangledName "is_done" true ⟨[op.classType], [.Bool]⟩] := by
    simp only [List.map_append, List.map_cons, List.map_nil, List.map_flatMap]
  have hlen : texts.length = 2 * op.actions.length := by
    rw [List.Forall₂.length_eq hall]
    generalize op.actions = l
    induction l with
    | nil => rfl
    | cons s l ih =>
      simp only [List.flatMap_cons, List.length_append, ih, List.length_cons, List.length_nil]
      omega
  refine ⟨texts ++ [t3], _, rfl, ?_, ?_, ?_, ?_, ?_⟩
  · have hb : getResultType ⟨[op.classType], [.Bool]⟩ = .Bool := rfl
    have h0 : String.join [] = "" := rfl
    simp only [emitActionMethods, hb, hok, hok3, andThen, join_append, join_cons, h0,
      String.append_empty]
  · simp [hlen]
  · exact List.rel_append hall (List.Forall₂.cons ⟨r3, p3, l3, a3, e3, ht3⟩ List.Forall₂.nil)
  · rw [hsym]
    simp [declareFunction, (declareActionStatements_records m op.actions st).1]
  · rw [hsym]
    unfold CSharpActionDeclarationMatcher.apply
    cases hi : op.isInternal
    · cases hp : op.hasPrecondition <;>
        simp [declareFunction, (declareActionStatements_records m op.actions _).1]
    · simp

set_option maxRecDepth 8000 in
/-- C22 (the code at the failing input): for the class `P` of the internal
action `_play` with the one step `pick`, `emitActionDecl` writes the class
wrapper and the three methods `pick`, `can_pick` and `is_done`, which call the
native symbols `rl_pick`, `rl_can_pick` and `rl_is_done`; the declaration pass
skips the internal action, so it declares and records none of the three.  For
the same action not flagged internal the text is the same and the declaration
pass records the three symbols after the symbol of the action. -/
theorem C22_internal_action_methods_call_undeclared_symbols :
    emitActionDecl sampleMangler sampleTable "P" "P" [] sampleInternalAction
      = .ok ("unsafe public class P\x7b\npublic Content* __content;\nprivate bool owning;\n"
          ++ "[StructLayout(LayoutKind.Sequential)]\npublic struct Content \x7b\n\x7d\n"
          ++ "public P(P.Content* referred) \x7b\nowning = false;\n__content = referred;\n\x7d\n"
          ++ "public P() \x7b\n"
          ++ "__content = (P.Content*) Marshal.AllocHGlobal(sizeof(P.Content));\n"
          ++ "owning = true;\nRLCNative.rl_init(ref *this.__content);\n\x7d\n"
          ++ "~P() \x7b\nif (!owning)\nreturn;\nRLCNative.rl_drop(ref *this.__content);\n"
          ++ "Marshal.FreeHGlobal((IntPtr)__content);\n\x7d\n"
          ++ "public void assign(P other) \x7bRLCNative.rl_assign(ref *this.__content, "
          ++ "ref *other.__content);\n\x7d\n\n"
          ++ "public void pick(long x)\x7b\n"
          ++ "RLCNative.rl_pick(ref *this.__content, ref x);\n\x7d\n\n"
          ++ "public bool can_pick(long x)\x7b\nbool __result = false;\n"
          ++ "RLCNative.rl_can_pick(ref __result, ref *this.__content, ref x);\n"
          ++ "return __result;\n\x7d\n\n"
          ++ "public bool is_done()\x7b\nbool __result = false;\n"
          ++ "RLCNative.rl_is_done(ref __result, ref *this.__content);\n"
          ++ "return __result;\n\x7d\n\n"
          ++ "\x7d\n\n") ∧
    (CSharpActionDeclarationMatcher.apply sampleMangler sampleInternalAction
        ⟨[], []⟩).written = [] ∧
    (CSharpActionDeclarationMatcher.apply sampleMangler sampleInternalAction
        ⟨[], []⟩).declaredFunNames = [] ∧
    emitActionDecl sampleMangler sampleTable "P" "P" [] sampleAction
      = emitActionDecl sampleMangler sampleTable "P" "P" [] sampleInternalAction ∧
    (CSharpActionDeclarationMatcher.apply sampleMangler sampleAction
        ⟨[], []⟩).declaredFunNames = ["rl_play", "rl_pick", "rl_can_pick", "rl_is_done"] :=
  ⟨rfl, rfl, rfl, rfl, rfl⟩

/-! ## C23: the default value of the result variable -/

/-- Helper: what `emitReturnVariable` writes for a result type that is not
wrapped in `Frame` or `Context`. -/
theorem emitReturnVariable_unwrapped (m : Mangler) (w : Nat) (T : IRType) (name mangled : String)
    (members : List (String × IRType)) (variants : List IRType) (n : Int) :
    emitReturnVariable m Void = "" ∧
    emitReturnVariable m Bool = "bool __result = false;\n" ∧
    emitReturnVariable m (Integer w)
      = writeType m .Raw (Integer w) ++ " __result" ++ " = 0;\n" ∧
    emitReturnVariable m Float = "double __result = 0;\n" ∧
    emitReturnVariable m (Reference T)
      = writeType m .Raw (Reference T) ++ " __result" ++ " = null;\n" ∧
    emitReturnVariable m (OwningPointer T)
      = writeType m .Raw (OwningPointer T) ++ " __result" ++ " = null;\n" ∧
    emitReturnVariable m StringLiteral = "char* __result = null;\n" ∧
    emitReturnVariable m (Class name mangled members)
      = mangled ++ " __result" ++ " = new " ++ mangled ++ "();" ∧
    emitReturnVariable m (Alternative mangled variants)
      = mangled ++ " __result" ++ " = new " ++ mangled ++ "();" ∧
    emitReturnVariable m (Array T n)
      = m.typeToMangled (Array T n) ++ " __result" ++ " = new "
          ++ m.typeToMangled (Array T n) ++ "();" :=
  ⟨rfl, rfl, rfl, rfl, rfl, rfl, rfl, rfl, rfl, rfl⟩

/-- C23 (the code at the failing inputs): for a result type wrapped in `Frame`
or `Context` the initialiser is chosen from the wrapper, not from the type the
variable is declared with: `Frame(Bool)` is declared `bool` and initialised
with `0`, and a `Reference`, an `OwningPointer` and a `StringLiteral` inside
`Context` or `Frame` are declared as pointers and initialised with `0`, not
with `null`. -/
theorem C23_wrapped_result_types_get_zero :
    emitReturnVariable sampleMangler (Frame Bool) = "bool __result = 0;\n" ∧
    emitReturnVariable sampleMangler (Context Bool) = "bool __result = 0;\n" ∧
    emitReturnVariable sampleMangler (Context (Reference (Class "A" "A" [])))
      = "A.Content* __result = 0;\n" ∧
    emitReturnVariable sampleMangler (Frame (OwningPointer (Integer 64)))
      = "long* __result = 0;\n" ∧
    emitReturnVariable sampleMangler (Frame StringLiteral) = "char* __result = 0;\n" ∧
    emitReturnVariable sampleMangler Bool = "bool __result = false;\n" ∧
    emitReturnVariable sampleMangler (Frame (Integer 64)) = "long __result = 0;\n" ∧
    emitReturnVariable sampleMangler (Frame (Class "A" "A" [])) = "A __result = new A();" :=
  ⟨rfl, rfl, rfl, rfl, rfl, rfl, rfl, rfl⟩

/-! ## C24: Raw and Wrapped rendering of wrapped types -/

/-- C24: for every Class, Alternative and Array type the Raw-mode rendering is
the Wrapped-mode rendering followed by `.Content`. -/
theorem C24_raw_is_wrapped_content (m : Mangler) (name mangled : String)
    (members : List (String × IRType)) (variants : List IRType) (T : IRType) (n : Int) :
    writeType m .Raw (Class name mangled members)
      = writeType m .Wrapped (Class name mangled members) ++ ".Content" ∧
    writeType m .Raw (Alternative mangled variants)
      = writeType m .Wrapped (Alternative mangled variants) ++ ".Content" ∧
    writeType m .Raw (Array T n) = writeType m .Wrapped (Array T n) ++ ".Content" :=
  ⟨rfl, rfl, rfl⟩

/-! ## C25: the inserted bounds check -/

/-- Helper: the one assertion the pass creates holds exactly for an index
inside the array. -/
theorem inserted_check_holds_iff_in_range (arraySize index : Int) :
    (CheckCondition.not (.or (.greaterEqual .memberIndex (.constant arraySize))
        (.less .memberIndex (.constant 0)))).eval index = true
      ↔ (0 ≤ index ∧ index < arraySize) := by
  simp only [CheckCondition.eval, CheckOperand.eval, Bool.not_eq_true', Bool.or_eq_false_iff,
    decide_eq_false_iff_not]
  omega

/-- Helper: what the pass does when the accessed value is not an array, when
the index is no constant, and when the index is a constant of 64 bits: only in
the last case, and only for a signed value inside the array, is the assertion
left out of an access on an array. -/
theorem addOutOfBoundsCheck_without_narrow_constants (arraySize : Int) (pattern value : Nat)
    (index : IndexOperand) :
    addOutOfBoundsCheck ⟨none, index⟩ = [] ∧
    addOutOfBoundsCheck ⟨some arraySize, .other value⟩
      = [.not (.or (.greaterEqual .memberIndex (.constant arraySize))
                   (.less .memberIndex (.constant 0)))] ∧
    addOutOfBoundsCheck ⟨some arraySize, .constant 64 pattern⟩
      = (if 0 ≤ signedValue 64 pattern ∧ signedValue 64 pattern < arraySize then []
         else [.not (.or (.greaterEqual .memberIndex (.constant arraySize))
                         (.less .memberIndex (.constant 0)))]) := by
  refine ⟨rfl, rfl, ?_⟩
  have h : toInt64 (getZExtValue 64 pattern) = signedValue 64 pattern := by
    simp [toInt64, getZExtValue, signedValue]
  simp only [addOutOfBoundsCheck, h, ge_iff_le]

/-- C25 (the code at the failing input): an access on an array of 300 elements
whose index is a constant of 8 bits with the bits `0xFF`, the signed value -1,
gets no assertion, because the pass compares the zero-extended value 255 with
the array size; the same signed value as a constant of 64 bits gets the
assertion. -/
theorem C25_narrow_negative_constant_is_left_unchecked :
    signedValue 8 255 = -1 ∧
    toInt64 (getZExtValue 8 255) = 255 ∧
    addOutOfBoundsCheck ⟨some 300, .constant 8 255⟩ = [] ∧
    signedValue 64 (2 ^ 64 - 1) = -1 ∧
    addOutOfBoundsCheck ⟨some 300, .constant 64 (2 ^ 64 - 1)⟩
      = [.not (.or (.greaterEqual .memberIndex (.constant 300))
                   (.less .memberIndex (.constant 0)))] := by
  decide

/-! ## C26: the call of `abort()` -/

/-- C26: for every result type the `abort()` in `emitMemberFunctionsWrapper` is
not reached.  Every `Reference` type is a C# builtin type, a type that is not a
builtin type has reference depth 0, the result slot is therefore always
written, and the wrapper generator either produces text or stops on an index
out of range, never on `abort()`. -/
theorem C26_abort_is_unreachable (m : Mangler) (mangledName name : String)
    (types : List IRType) (args : List String) (returnType T : IRType) :
    isCSharpBuiltinType (Reference T) = true ∧
    (isCSharpBuiltinType returnType = true ∨ depthOfReference returnType = 0) ∧
    (∃ slot, memberResultSlot returnType = .ok slot) ∧
    ((∃ text, emitMemberFunctionsWrapper m mangledName name types args returnType = .ok text)
      ∨ emitMemberFunctionsWrapper m mangledName name types args returnType
          = .error .outOfRange) := by
  refine ⟨rfl, ?_, ⟨_, memberResultSlot_eq returnType⟩, ?_⟩
  · cases hb : isCSharpBuiltinType returnType
    · exact Or.inr (depthOfReference_of_not_builtin returnType hb)
    · exact Or.inl rfl
  · unfold emitMemberFunctionsWrapper
    rw [memberResultSlot_eq]
    cases hg : (args.isEmpty || decide (types.length < args.length))
    · exact Or.inl ⟨_, rfl⟩
    · exact Or.inr rfl

/-! ## C27: the spelling of an argument in the native call -/

/-- C27 (the code at the failing input): for a member function with the
parameter `out`, the wrapper declares the parameter as `_out` but passes
`ref out` to the native function; the free-function wrapper of a function with
the same parameter uses `_out` in both places. -/
theorem C27_member_wrapper_passes_out_unprefixed :
    emitMemberFunctionsWrapper sampleMangler "rl_f" "f" [Class "A" "A" [], Integer 64]
        ["self", "out"] Void
      = .ok ("public void f(long _out)\x7b\n"
          ++ "RLCNative.rl_f(ref *this.__content, ref out);\n\x7d\n\n") ∧
    emitFreeFunctionsWrapper sampleMangler "rl_f" "f" [Integer 64] ["out"] Void
      = .ok ("public static void f(long _out)\x7b\n"
          ++ "RLCNative.rl_f(ref _out);\n\x7d\n\n") :=
  ⟨rfl, rfl⟩

/-! ## C28: the names of the getters of an Alternative type -/

/-- Helper: a common start can be cancelled. -/
theorem string_append_left_cancel (s a b : String) (h : s ++ a = s ++ b) : a = b := by
  have h' := congrArg String.data h
  simp only [String.data_append] at h'
  exact String.ext (List.append_cancel_left h')

/-- C28 (as stated, refuted): the variants `Integer 8` and `Integer 16` are
distinct IR types, yet both getters of the alternative over them are named
`get_sbyte`. -/
theorem C28_distinct_variants_share_a_getter_name :
    Integer 8 ≠ Integer 16 ∧
    (emitGetterSettersAlternative sampleMangler [Integer 8, Integer 16]).map
        AlternativeGetter.name = ["get_sbyte", "get_sbyte"] ∧
    ¬ ((emitGetterSettersAlternative sampleMangler [Integer 8, Integer 16]).map
        AlternativeGetter.name).Nodup := by
  refine ⟨by simp, by decide, by decide⟩

/-- C28 (amended): the name of each getter is `get_` followed by the Wrapped
rendering of its variant, and the names of the getters of an Alternative type
are pairwise distinct exactly when the Wrapped renderings of its variants are
pairwise distinct. -/
theorem C28_getter_names_follow_the_rendering (m : Mangler) (underlying : List IRType) :
    (emitGetterSettersAlternative m underlying).map AlternativeGetter.name
      = underlying.map (fun variant => "get_" ++ writeType m .Wrapped variant) ∧
    (((emitGetterSettersAlternative m underlying).map AlternativeGetter.name).Nodup
      ↔ (underlying.map (writeType m .Wrapped)).Nodup) := by
  have hnames : (emitGetterSettersAlternative m underlying).map AlternativeGetter.name
      = (underlying.map (writeType m .Wrapped)).map (fun t => "get_" ++ t) := by
    apply List.ext_getElem?
    intro n
    simp only [emitGetterSettersAlternative, List.getElem?_map, List.getElem?_enum,
      Option.map_map]
    cases underlying[n]? <;> rfl
  refine ⟨?_, ?_⟩
  · rw [hnames, List.map_map]; rfl
  · rw [hnames]
    exact List.nodup_map_iff (fun a b h => string_append_left_cancel "get_" a b h)

/-! ## C29: the native call and the delegate -/

/-- C29: for a function with as many parameter types as parameter names, the
native call in its wrapper passes as many arguments as the delegate declared
for the same symbol has parameters, position by position: the result slot
first when the result is not `Void`, then one argument for every parameter in
order, where the member wrapper passes `ref *this.__content` in the position of
the receiver; every argument and every parameter is preceded by `ref`. -/
theorem C29_call_arguments_match_delegate_parameters (m : Mangler)
    (mangledName name : String) (types : List IRType) (args : List String)
    (receiverType : IRType) (restTypes : List IRType) (receiver : String)
    (rest : List String) (returnType : IRType) (st : Declared)
    (hlen : types.length = args.length) (hrest : restTypes.length = rest.length) :
    ∃ declared passed declaredMember passedMember : List String,
      declared
        = (if isVoid returnType then []
            else ["ref " ++ writeType m .Raw returnType ++ " __result"])
          ++ (types.zip args).map (fun p =>
              "ref " ++ writeType m .Raw p.1 ++ " " ++ writeName p.2) ∧
      passed
        = (if isVoid returnType then []
            else ["ref " ++ (if !isCSharpBuiltinType returnType then "*" else "")
                    ++ "__result"
                    ++ (if !isCSharpBuiltinType returnType then ".__content" else "")])
          ++ (types.zip args).map (fun p =>
              "ref " ++ (if !isCSharpBuiltinType p.1 then "*" else "") ++ writeName p.2
                ++ (if !isCSharpBuiltinType p.1 then ".__content" else "")) ∧
      (declareFunction m mangledName types args returnType st).written
        = st.written ++ [⟨mangledName, "(" ++ ", ".intercalate declared ++ ")",
            mangledName, mangledName⟩] ∧
      (∃ pre post,
        emitFreeFunctionsWrapper m mangledName name types args returnType
          = .ok (pre ++ ("RLCNative." ++ mangledName ++ "(" ++ ", ".intercalate passed
              ++ ");\n") ++ post)) ∧
      passed.length = declared.length ∧
      declaredMember
        = (if isVoid returnType then []
            else ["ref " ++ writeType m .Raw returnType ++ " __result"])
          ++ ("ref " ++ writeType m .Raw receiverType ++ " " ++ writeName receiver)
            :: (restTypes.zip rest).map (fun p =>
                "ref " ++ writeType m .Raw p.1 ++ " " ++ writeName p.2) ∧
      passedMember
        = (if isVoid returnType then []
            else [if isCSharpBuiltinType returnType then "ref __result"
                  else "ref *__result.__content"])
          ++ "ref *this.__content" :: (restTypes.zip rest).map (fun p =>
              "ref " ++ (if !isCSharpBuiltinType p.1 then "*" else "") ++ p.2
                ++ (if !isCSharpBuiltinType p.1 then ".__content" else "")) ∧
      (declareFunction m mangledName (receiverType :: restTypes) (receiver :: rest)
          returnType st).written
        = st.written ++ [⟨mangledName, "(" ++ ", ".intercalate declaredMember ++ ")",
            mangledName, mangledName⟩] ∧
      (∃ pre post,
        emitMemberFunctionsWrapper m mangledName name (receiverType :: restTypes)
            (receiver :: rest) returnType
          = .ok (pre ++ ("RLCNative." ++ mangledName ++ "(" ++ ", ".intercalate passedMember
              ++ ");\n") ++ post)) ∧
      passedMember.length = declaredMember.length := by
  refine ⟨_, _, _, _, rfl, rfl, ?_, ?_, ?_, rfl, rfl, ?_, ?_, ?_⟩
  · unfold declareFunction
    rw [writeFunctionArgs_declaration m types args returnType (by omega)]
  · refine ⟨"public static " ++ writeType m .Wrapped returnType ++ " " ++ name
        ++ ("(" ++ ", ".intercalate ((types.zip args).map fun p =>
              writeType m .Wrapped p.1 ++ " " ++ writeName p.2) ++ ")")
        ++ "\x7b\n" ++ emitReturnVariable m returnType,
      freeReturn returnType ++ "\x7d\n" ++ "\n", ?_⟩
    rw [emitFreeFunctionsWrapper_shape m mangledName name types args returnType (by omega)]
    simp only [String.append_assoc]
  · cases hv : isVoid returnType <;> simp
  · unfold declareFunction
    rw [writeFunctionArgs_declaration m (receiverType :: restTypes) (receiver :: rest)
      returnType (by simp only [List.length_cons]; omega)]
    rfl
  · refine ⟨"public " ++ writeType m .Wrapped returnType ++ " " ++ name
        ++ ("(" ++ ", ".intercalate ((restTypes.zip rest).map fun p =>
              writeType m .Wrapped p.1 ++ " " ++ writeName p.2) ++ ")")
        ++ "\x7b\n" ++ emitReturnVariable m returnType,
      memberReturn m returnType ++ "\x7d\n" ++ "\n", ?_⟩
    rw [emitMemberFunctionsWrapper_shape m mangledName name receiverType restTypes receiver
      rest returnType (by omega)]
    simp only [String.append_assoc]
  · cases hv : isVoid returnType <;> simp

/-- Witness of C29: a function with the parameters `x` and `b` and a `Bool`
result: the delegate has three parameters. -/
theorem C29_call_arguments_match_delegate_parameters_witness :
    (declareFunction sampleMangler "rl_f" [Integer 64, Class "B" "B" []] ["x", "b"] Bool
        ⟨[], []⟩).written.map Delegate.parameters
      = ["(ref bool __result, ref long x, ref B.Content b)"] := by
  obtain ⟨declared, passed, _, _, hd, _, hw, _⟩ :=
    C29_call_arguments_match_delegate_parameters sampleMangler "rl_f" "f"
      [Integer 64, Class "B" "B" []] ["x", "b"] (Class "A" "A" []) [] "self" [] Bool ⟨[], []⟩
      (by decide) (by decide)
  rw [hw, hd]
  rfl

/-! ## C30: the statements of the loader primitives -/

/-- C30 (the code at the failing input): in the Windows block the constant
`KERNEL` and the import of `LoadLibrary` are not terminated by `;`; in the Apple
block and in the generic UNIX block every constant declaration and every
`static extern` import is. -/
theorem C30_windows_block_misses_semicolons :
    (emitDLLImporters false true).filter
        (fun line => (isConstantDeclaration line || isExternImport line) && !isTerminated line)
      = [ "const string KERNEL = \"kernel32\"\n",
          "[DllImport(KERNEL, SetLastError = true)] static extern "
            ++ "IntPtr LoadLibrary(string path) " ] ∧
    (emitDLLImporters true false).filter
        (fun line => (isConstantDeclaration line || isExternImport line) && !isTerminated line)
      = [] ∧
    (emitDLLImporters true true).filter
        (fun line => (isConstantDeclaration line || isExternImport line) && !isTerminated line)
      = [] ∧
    (emitDLLImporters false false).filter
        (fun line => (isConstantDeclaration line || isExternImport line) && !isTerminated line)
      = [] := by
  decide

/-! ## C31: the reference layers of a type -/

theorem depthOfReferenceWhile_eq (t : IRType) :
    ∀ fuel k : Nat, depthOfReference t < fuel →
      depthOfReferenceWhile fuel t k = some (k + depthOfReference t) := by
  induction t using depthOfReference.induct with
  | case1 u ih =>
    intro fuel k h
    cases fuel with
    | zero => omega
    | succ f =>
      simp only [depthOfReference] at h ⊢
      rw [depthOfReferenceWhile, ih f (k + 1) (by omega)]
      congr 1; omega
  | case2 t ht =>
    intro fuel k h
    cases fuel with
    | zero => omega
    | succ f =>
      cases t <;> first | exact absurd rfl (ht _) | rfl

theorem dereferenceTypeWhile_eq (t : IRType) :
    ∀ fuel : Nat, depthOfReference t < fuel →
      dereferenceTypeWhile fuel t = some (dereferenceType t) := by
  induction t using depthOfReference.induct with
  | case1 u ih =>
    intro fuel h
    cases fuel with
    | zero => omega
    | succ f =>
      simp only [depthOfReference] at h
      rw [dereferenceTypeWhile, dereferenceType, ih f (by omega)]
  | case2 t ht =>
    intro fuel h
    cases fuel with
    | zero => omega
    | succ f =>
      cases t <;> first | exact absurd rfl (ht _) | rfl

theorem isReference_dereferenceType (t : IRType) :
    isReference (dereferenceType t) = false := by
  induction t using depthOfReference.induct with
  | case1 u ih => rw [dereferenceType]; exact ih
  | case2 t ht => cases t <;> first | exact absurd rfl (ht _) | rfl

theorem iterate_dereferenceType (t : IRType) :
    Nat.iterate Reference (depthOfReference t) (dereferenceType t) = t := by
  induction t using depthOfReference.induct with
  | case1 u ih =>
    rw [depthOfReference, dereferenceType, Function.iterate_succ_apply', ih]
  | case2 t ht => cases t <;> first | exact absurd rfl (ht _) | rfl

theorem depthOfReference_iterate (n : Nat) (u : IRType) (hu : isReference u = false) :
    depthOfReference (Nat.iterate Reference n u) = n ∧
    dereferenceType (Nat.iterate Reference n u) = u := by
  induction n with
  | zero => cases u <;> first | exact ⟨rfl, rfl⟩ | exact absurd hu (by simp [isReference])
  | succ n ih =>
    rw [Function.iterate_succ_apply', depthOfReference, dereferenceType]
    exact ⟨by rw [ih.1], ih.2⟩

theorem depthOfReference_eq_zero_iff (t : IRType) :
    depthOfReference t = 0 ↔ isReference t = false := by
  cases t <;> simp [depthOfReference, isReference]

/-- C31: for every type `t`, both loops leave after `depthOfReference t + 1`
tests of their condition (so with any larger bound as well) and return
`depthOfReference t` and `dereferenceType t`; `dereferenceType t` is not a
`Reference`; `t` is `dereferenceType t` under `depthOfReference t` layers of
`Reference`, and this is the only way to write a type as a non-`Reference` type
under `Reference` layers; the depth is zero exactly when `t` is not a
`Reference`; and a `Frame`, `Context` or `OwningPointer` on top stops both
loops at once, whatever lies below it. -/
theorem C31_reference_layers_are_counted_and_stripped (t u : IRType) (n fuel : Nat)
    (hfuel : depthOfReference t < fuel) (hu : isReference u = false) :
    depthOfReferenceWhile fuel t 0 = some (depthOfReference t) ∧
    dereferenceTypeWhile fuel t = some (dereferenceType t) ∧
    isReference (dereferenceType t) = false ∧
    Nat.iterate Reference (depthOfReference t) (dereferenceType t) = t ∧
    (depthOfReference (Nat.iterate Reference n u) = n ∧
      dereferenceType (Nat.iterate Reference n u) = u) ∧
    (depthOfReference t = 0 ↔ isReference t = false) ∧
    (depthOfReference (Frame t) = 0 ∧ dereferenceType (Frame t) = Frame t) ∧
    (depthOfReference (Context t) = 0 ∧ dereferenceType (Context t) = Context t) ∧
    (depthOfReference (OwningPointer t) = 0 ∧
      dereferenceType (OwningPointer t) = OwningPointer t) := by
  refine ⟨?_, dereferenceTypeWhile_eq t fuel hfuel, isReference_dereferenceType t,
    iterate_dereferenceType t, depthOfReference_iterate n u hu,
    depthOfReference_eq_zero_iff t, ⟨rfl, rfl⟩, ⟨rfl, rfl⟩, ⟨rfl, rfl⟩⟩
  rw [depthOfReferenceWhile_eq t fuel 0 hfuel, Nat.zero_add]

/-- C31 at a concrete input: two `Reference` layers over a `Frame` that itself
holds a `Reference`, with three tests allowed, and the non-`Reference` type
`OwningPointer (Reference Bool)` under two layers. -/
theorem C31_reference_layers_are_counted_and_stripped_witness :
    depthOfReference (Reference (Reference (Frame (Reference Bool)))) < 3 ∧
    isReference (OwningPointer (Reference Bool)) = false ∧
    depthOfReferenceWhile 3 (Reference (Reference (Frame (Reference Bool)))) 0 = some 2 ∧
    dereferenceTypeWhile 3 (Reference (Reference (Frame (Reference Bool))))
      = some (Frame (Reference Bool)) ∧
    depthOfReference (Reference (Reference (OwningPointer (Reference Bool)))) = 2 ∧
    dereferenceType (Reference (Reference (OwningPointer (Reference Bool))))
      = OwningPointer (Reference Bool) := by
  have h := C31_reference_layers_are_counted_and_stripped
    (Reference (Reference (Frame (Reference Bool)))) (OwningPointer (Reference Bool)) 2 3
    (by decide) rfl
  exact ⟨by decide, rfl, h.1, h.2.1, h.2.2.2.2.1.1, h.2.2.2.2.1.2⟩

end RLC
